import Mathlib

/-!
Verification development for the dictamen/ley reconciliation engine.

The definitions below are a shallow embedding, translated function by
function, of the Python sources:

  * src/utils/comparar_ley_dictamen.py  (reconciliation engine)
  * src/matcher/matcher.py              (match-result builder)
  * src/parsers/dictamen/parser.py      (amendment parser state machine)

Modelling conventions.

  * Python strings are Lean `String`s; scanning works on `List Char`.
  * A JSON field that the code reads with `dict.get` is an `Option String`;
    `none` stands for a missing key or an explicit JSON null, which the
    code treats alike through truthiness tests (empty strings are falsy,
    captured by `truthy`).  The one field for which the code distinguishes
    a missing key from a null value is `accion` (read via
    `get("accion", "").lower()`, which raises on null); it is modelled by
    the three-valued `StrField`.
  * Each regular expression of the source is translated into a dedicated
    scanner with the same search / alternation / greediness behaviour;
    the scanner is named after the place it is used.
  * Python dicts used as ordered maps become insertion-ordered association
    lists with in-place overwrite (`alInsert`), Python sets of strings
    become insertion-ordered duplicate-free lists (`setAdd`); only
    membership and cardinality of sets are ever consumed by the code.
  * `list.sort(key=...)` (a stable sort) is modelled by the stable
    `List.insertionSort`; any two stable sorts by the same key agree.
-/

set_option maxRecDepth 8000

namespace LCT

/-! ## Python string primitives -/

abbrev Cs := List Char

/-- Lower-casing as `str.lower` does on the alphabet this corpus uses
(ASCII plus the accented Spanish letters that occur in the sources). -/
def pyLowerChar (c : Char) : Char :=
  if c = 'Á' then 'á' else if c = 'É' then 'é' else if c = 'Í' then 'í'
  else if c = 'Ó' then 'ó' else if c = 'Ú' then 'ú' else if c = 'Ñ' then 'ñ'
  else if c = 'Ü' then 'ü' else c.toLower

/-- Upper-casing as `str.upper` does, on the same alphabet. -/
def pyUpperChar (c : Char) : Char :=
  if c = 'á' then 'Á' else if c = 'é' then 'É' else if c = 'í' then 'Í'
  else if c = 'ó' then 'Ó' else if c = 'ú' then 'Ú' else if c = 'ñ' then 'Ñ'
  else if c = 'ü' then 'Ü' else c.toUpper

/-- The character class of the regex `\s` (and of `str.strip`). -/
def pyIsSpace (c : Char) : Bool :=
  c = ' ' || c = '\t' || c = '\n' || c = '\r' || c = '\x0b' || c = '\x0c'

/-- The character class of the regex `\w`, on the alphabet of the corpus. -/
def pyIsWordChar (c : Char) : Bool :=
  c.isAlphanum || c = '_' ||
    c ∈ ['á', 'é', 'í', 'ó', 'ú', 'ñ', 'ü', 'Á', 'É', 'Í', 'Ó', 'Ú', 'Ñ', 'Ü']

def pyLower (s : String) : String := String.mk (s.data.map pyLowerChar)

def pyUpper (s : String) : String := String.mk (s.data.map pyUpperChar)

def stripCs (s : Cs) : Cs :=
  ((s.dropWhile pyIsSpace).reverse.dropWhile pyIsSpace).reverse

/-- `str.strip()`. -/
def pyStrip (s : String) : String := String.mk (stripCs s.data)

/-- Truthiness of an optional string field: `None` and `""` are falsy. -/
def truthy : Option String → Bool
  | none => false
  | some s => !s.isEmpty

/-- `str(x)` for a field that is either a string or `None`. -/
def pyStr : Option String → String
  | none => "None"
  | some s => s

/-! ## Scanner combinators (translations of the `re` idioms used) -/

/-- Case-insensitive literal match at the current position.  The pattern
is given lower-cased; on success returns (original consumed text, rest). -/
def matchCI : Cs → Cs → Option (Cs × Cs)
  | [], s => some ([], s)
  | _ :: _, [] => none
  | p :: ps, c :: s =>
      if pyLowerChar c = p then
        (matchCI ps s).map (fun pr => (c :: pr.1, pr.2))
      else none

/-- First alternative (in pattern order) that matches at this position. -/
def altCI (pats : List Cs) (s : Cs) : Option (Cs × Cs) :=
  match pats with
  | [] => none
  | p :: ps => (matchCI p s).orElse (fun _ => altCI ps s)

/-- `\s*` (greedy). -/
def ws0 (s : Cs) : Cs := s.dropWhile pyIsSpace

/-- `\s+` (greedy). -/
def ws1 (s : Cs) : Option Cs :=
  match s with
  | c :: r => if pyIsSpace c then some (ws0 r) else none
  | [] => none

/-- `\d+` (greedy), returning (digits, rest). -/
def digits1 (s : Cs) : Option (Cs × Cs) :=
  let ds := s.takeWhile Char.isDigit
  if ds.isEmpty then none else some (ds, s.dropWhile Char.isDigit)

/-- First element of `l` on which `f` succeeds (regex backtracking over an
ordered candidate list). -/
def firstSome {α β : Type} (l : List α) (f : α → Option β) : Option β :=
  match l with
  | [] => none
  | x :: r => (f x).orElse (fun _ => firstSome r f)

/-- `re.search`: try the position-anchored scanner at every position, left
to right. -/
def reSearch {β : Type} (tryAt : Cs → Option β) : Cs → Option β
  | [] => tryAt []
  | c :: r => (tryAt (c :: r)).orElse (fun _ => reSearch tryAt r)

/-- The Latin ordinal suffixes, in the alternation order of the sources. -/
def sufijos : List Cs :=
  ["bis".data, "ter".data, "quater".data, "quinquies".data, "sexies".data,
   "septies".data, "octies".data, "nonies".data, "decies".data]

/-- Candidates, in backtracking order (greedy first), for the article
number group `\d+(?:\s*[°º])?(?:\s*(?:bis|...|decies))?` — with `withDeg`
set — or `\d+(?:\s*(?:bis|...|decies))?` without.  Each candidate is
(group text, rest of input). -/
def numCands (withDeg : Bool) (s : Cs) : List (Cs × Cs) :=
  match digits1 s with
  | none => []
  | some (ds, r1) =>
    let degC : List (Cs × Cs) :=
      (if withDeg then
        match ws0 r1 with
        | c :: rest =>
            if c = '°' || c = 'º' then [(r1.takeWhile pyIsSpace ++ [c], rest)]
            else []
        | [] => []
      else []) ++ [([], r1)]
    let expand : Cs × Cs → List (Cs × Cs) := fun dc =>
      let sufC : List (Cs × Cs) :=
        (match altCI sufijos (ws0 dc.2) with
         | some (w, rest) => [(dc.2.takeWhile pyIsSpace ++ w, rest)]
         | none => []) ++ [([], dc.2)]
      sufC.map (fun sc => (ds ++ dc.1 ++ sc.1, sc.2))
    match degC with
    | [] => []
    | [d1] => expand d1
    | d1 :: d2 :: _ => expand d1 ++ expand d2

/-- The two spellings of "artículo" that `art[íi]culo` accepts. -/
def articuloWords : List Cs := ["artículo".data, "articulo".data]

/-! ## comparar_ley_dictamen.py : get_destino_articulo -/

/-- The operation record (one element of the dictamen JSON list), with the
fields the embedded functions read.  `accion` keeps the missing/null/string
distinction; the remaining fields are read only through truthiness-guarded
`get`s, for which `none` covers both missing and null. -/
inductive StrField
  | missing
  | null
  | str (s : String)
deriving DecidableEq, Repr

structure Cambio where
  accion : StrField := .missing
  encabezado : Option String := none
  texto_nuevo : Option String := none
  destino_articulo : Option String := none
  destino_capitulo : Option String := none
  dictamen_articulo : Option String := none
deriving DecidableEq, Repr

/-- `cambio.get("accion", "").lower()`: a present-but-null value raises
`AttributeError` (`None.lower()`), modelled by `none`. -/
def StrField.lowerGetEmpty : StrField → Option String
  | .missing => some ""
  | .null => none
  | .str s => some (pyLower s)

/-- `cambio.get("accion")` (default `None`) as used by the matcher. -/
def StrField.getOpt : StrField → Option String
  | .missing => none
  | .null => none
  | .str s => some s

/-- Scanner for
`(?:sustit[úu]yese|der[óo]gase|modif[íi]case)\s+(?:el|los)\s+art[íi]culo[s]?\s+(NUM)`
(comparar_ley_dictamen.get_destino_articulo, header priority), anchored at
the current position; `NUM` is the degree-and-suffix number group. -/
def tryVerboArtCmp (s : Cs) : Option String :=
  match altCI ["sustitúyese".data, "sustituyese".data, "derógase".data,
               "derogase".data, "modifícase".data, "modificase".data] s with
  | none => none
  | some (_, r1) =>
    match ws1 r1 with
    | none => none
    | some r2 =>
      let elPart : Option Cs :=
        (match matchCI "el".data r2 with
         | some (_, ra) => ws1 ra
         | none => none).orElse fun _ =>
        (match matchCI "los".data r2 with
         | some (_, rb) => ws1 rb
         | none => none)
      match elPart with
      | none => none
      | some r3 =>
        match altCI articuloWords r3 with
        | none => none
        | some (_, r4) =>
          let afterArt : Option Cs :=
            (match r4 with
             | c :: r5 => if pyLowerChar c = 's' then ws1 r5 else none
             | [] => none).orElse fun _ => ws1 r4
          match afterArt with
          | none => none
          | some r6 =>
            match numCands true r6 with
            | [] => none
            | (g, _) :: _ => some (pyStrip (String.mk g))

/-- Scanner for `incorp[óo]rase\s+como\s+art[íi]culo\s+(NUM)` with the
degree-and-suffix number group (comparar_ley_dictamen). -/
def tryIncorpComoArtCmp (s : Cs) : Option String :=
  match altCI ["incorpórase".data, "incorporase".data] s with
  | none => none
  | some (_, r1) =>
    match ws1 r1 with
    | none => none
    | some r2 =>
      match matchCI "como".data r2 with
      | none => none
      | some (_, r3) =>
        match ws1 r3 with
        | none => none
        | some r4 =>
          match altCI articuloWords r4 with
          | none => none
          | some (_, r5) =>
            match ws1 r5 with
            | none => none
            | some r6 =>
              match numCands true r6 with
              | [] => none
              | (g, _) :: _ => some (pyStrip (String.mk g))

/-- Continuation `\s*[°º]?[\.-]` (dot or dash), with backtracking over the
optional degree sign. -/
def contDegPuntoGuion (r : Cs) : Bool :=
  let headDotDash : Cs → Bool := fun rr =>
    match rr with
    | c :: _ => c = '.' || c = '-'
    | [] => false
  match ws0 r with
  | c :: rest =>
      if c = '°' || c = 'º' then headDotDash rest || headDotDash (c :: rest)
      else headDotDash (c :: rest)
  | [] => false

/-- Continuation `\s*[°º]?-` (dash only). -/
def contDegGuion (r : Cs) : Bool :=
  let headDash : Cs → Bool := fun rr =>
    match rr with
    | c :: _ => c = '-'
    | [] => false
  match ws0 r with
  | c :: rest =>
      if c = '°' || c = 'º' then headDash rest || headDash (c :: rest)
      else headDash (c :: rest)
  | [] => false

/-- Scanner for `ART[ÍI]CULO\s+(NUM)\s*[°º]?[\.-]` with the
degree-and-suffix group (comparar_ley_dictamen, texto_nuevo priority). -/
def tryArticuloNumPuntoCmp (s : Cs) : Option String :=
  match altCI articuloWords s with
  | none => none
  | some (_, r1) =>
    match ws1 r1 with
    | none => none
    | some r2 =>
      firstSome (numCands true r2) (fun gr =>
        if contDegPuntoGuion gr.2 then some (pyStrip (String.mk gr.1)) else none)

/-- The `numero_desde_encabezado` computation of
comparar_ley_dictamen.get_destino_articulo (the verb pattern, then the
incorporation pattern). -/
def numeroDesdeEncabezadoCmp (c : Cambio) : Option String :=
  match c.encabezado with
  | some e =>
      if e.isEmpty then none
      else (reSearch tryVerboArtCmp e.data).orElse
             (fun _ => reSearch tryIncorpComoArtCmp e.data)
  | none => none

/-- The `numero_desde_texto` computation of
comparar_ley_dictamen.get_destino_articulo. -/
def numeroDesdeTextoCmp (c : Cambio) : Option String :=
  match c.texto_nuevo with
  | some t =>
      if t.isEmpty then none else reSearch tryArticuloNumPuntoCmp t.data
  | none => none

/-- comparar_ley_dictamen.py, get_destino_articulo.  Priority: explicit
`destino_articulo`, then the header patterns, then the head of
`texto_nuevo` (the docstring records that this order was deliberately
inverted with respect to the matcher).  The final `encabezado or texto`
of the source coincides with `Option.orElse` because the header group is
never the empty string. -/
def getDestinoCmp (c : Cambio) : Option String :=
  if truthy c.destino_articulo then some (pyStrip (c.destino_articulo.getD ""))
  else (numeroDesdeEncabezadoCmp c).orElse fun _ => numeroDesdeTextoCmp c

/-! ## matcher.py : get_destino_articulo -/

/-- Scanner for the matcher number group (no degree sign inside the
group): `incorp[óo]rase\s+como\s+art[íi]culo\s+(\d+(?:\s*(?:bis|...))?)`. -/
def tryIncorpComoArtM (s : Cs) : Option String :=
  match altCI ["incorpórase".data, "incorporase".data] s with
  | none => none
  | some (_, r1) =>
    match ws1 r1 with
    | none => none
    | some r2 =>
      match matchCI "como".data r2 with
      | none => none
      | some (_, r3) =>
        match ws1 r3 with
        | none => none
        | some r4 =>
          match altCI articuloWords r4 with
          | none => none
          | some (_, r5) =>
            match ws1 r5 with
            | none => none
            | some r6 =>
              match numCands false r6 with
              | [] => none
              | (g, _) :: _ => some (pyStrip (String.mk g))

/-- Scanner for `art[íi]culo\s+(\d+(?:\s*(?:bis|...))?)` (matcher header
fallback). -/
def tryArtSimpleM (s : Cs) : Option String :=
  match altCI articuloWords s with
  | none => none
  | some (_, r1) =>
    match ws1 r1 with
    | none => none
    | some r2 =>
      match numCands false r2 with
      | [] => none
      | (g, _) :: _ => some (pyStrip (String.mk g))

/-- matcher.py, extract_article_number_from_header. -/
def extractArticleNumberFromHeaderM (encabezado : Option String) : Option String :=
  match encabezado with
  | none => none
  | some e =>
      if e.isEmpty then none
      else (reSearch tryIncorpComoArtM e.data).orElse
             (fun _ => reSearch tryArtSimpleM e.data)

/-- Scanner for `ART[ÍI]CULO\s+(\d+(?:\s*(?:bis|...))?)\s*[°º]?-`
(matcher, texto_nuevo priority; dash only). -/
def tryArticuloNumGuionM (s : Cs) : Option String :=
  match altCI articuloWords s with
  | none => none
  | some (_, r1) =>
    match ws1 r1 with
    | none => none
    | some r2 =>
      firstSome (numCands false r2) (fun gr =>
        if contDegGuion gr.2 then some (pyStrip (String.mk gr.1)) else none)

/-- matcher.py, get_destino_articulo.  Priority: explicit
`destino_articulo` (no strip: `str(cambio["destino_articulo"])`), then the
head of `texto_nuevo`, then the header. -/
def numeroDesdeTextoM (c : Cambio) : Option String :=
  match c.texto_nuevo with
  | some t =>
      if t.isEmpty then none else reSearch tryArticuloNumGuionM t.data
  | none => none

def getDestinoM (c : Cambio) : Option String :=
  if truthy c.destino_articulo then some (c.destino_articulo.getD "")
  else
    match numeroDesdeTextoM c with
    | some v => some v
    | none =>
        match extractArticleNumberFromHeaderM c.encabezado with
        | some h => if h.isEmpty then none else some h
        | none => none

example :
    getDestinoCmp { encabezado := some "Sustitúyese el artículo 5 de la ley.",
                    texto_nuevo := some "ARTÍCULO 7- Texto." } = some "5" := by
  decide

example :
    getDestinoM { encabezado := some "Sustitúyese el artículo 5 de la ley.",
                  texto_nuevo := some "ARTÍCULO 7- Texto." } = some "7" := by
  decide

/-! ## Law tree data model (the JSON shape consumed by both engines) -/

structure Inciso where
  letra : String := ""
  texto : String := ""
deriving DecidableEq, Repr

structure Articulo where
  numero : Option String := none
  titulo : Option String := none
  texto : Option String := none
  incisos : List Inciso := []
deriving DecidableEq, Repr

structure Capitulo where
  numero : Option String := none
  nombre : Option String := none
  articulos : List Articulo := []
deriving DecidableEq, Repr

structure Titulo where
  numero : Option String := none
  nombre : Option String := none
  articulos : List Articulo := []
  capitulos : List Capitulo := []
deriving DecidableEq, Repr

/-- `ley_data.get('ley', {}).get('titulos', [])`; payload keys of the law
object other than `titulos` are copied through unchanged and are not read
by any embedded function, so they are not modelled. -/
structure LeyData where
  titulos : List Titulo := []
deriving DecidableEq, Repr

/-- `normalize_article_number`: `str(x).strip()`, with `None` giving `''`. -/
def normalizeArt : Option String → String
  | none => ""
  | some s => pyStrip s

def findArtInList (arts : List Articulo) (n : String) : Option Articulo :=
  arts.find? (fun a => normalizeArt a.numero == n)

def findInCaps (caps : List Capitulo) (n : String) (capFilter : Option String) :
    Option (Articulo × Capitulo) :=
  match caps with
  | [] => none
  | c :: rest =>
      if truthy capFilter && !(normalizeArt c.numero == pyStrip (capFilter.getD "")) then
        findInCaps rest n capFilter
      else
        match findArtInList c.articulos n with
        | some a => some (a, c)
        | none => findInCaps rest n capFilter

def findInTitulos (ts : List Titulo) (n : String)
    (titFilter capFilter : Option String) :
    Option (Articulo × Titulo × Option Capitulo) :=
  match ts with
  | [] => none
  | t :: rest =>
      if truthy titFilter && !(normalizeArt t.numero == pyStrip (titFilter.getD "")) then
        findInTitulos rest n titFilter capFilter
      else
        match findArtInList t.articulos n with
        | some a => some (a, t, none)
        | none =>
            match findInCaps t.capitulos n capFilter with
            | some (a, c) => some (a, t, some c)
            | none => findInTitulos rest n titFilter capFilter

/-- comparar_ley_dictamen.py, find_article_in_ley. -/
def findArticleInLey (ley : LeyData) (numeroIn : String)
    (titFilter capFilter : Option String) :
    Option (Articulo × Titulo × Option Capitulo) :=
  findInTitulos ley.titulos (pyStrip numeroIn) titFilter capFilter

/-! ## comparar_ley_dictamen.py : extract_title_from_text / parse_article_text -/

/-- `re.search` keeping the absolute position of the match start. -/
def reSearchPos {β : Type} (tryAt : Cs → Option β) : Nat → Cs → Option (Nat × β)
  | i, [] => (tryAt []).map (fun b => (i, b))
  | i, c :: r =>
      match tryAt (c :: r) with
      | some b => some (i, b)
      | none => reSearchPos tryAt (i + 1) r

/-- `\s*[°º]?-` returning the rest after the dash. -/
def contDegGuionRest (r : Cs) : Option Cs :=
  let headDash : Cs → Option Cs := fun rr =>
    match rr with
    | c :: rest2 => if c = '-' then some rest2 else none
    | [] => none
  match ws0 r with
  | c :: rest =>
      if c = '°' || c = 'º' then (headDash rest).orElse (fun _ => headDash (c :: rest))
      else headDash (c :: rest)
  | [] => none

/-- The terminator `(?:\.\s+|\n|$)` of the title pattern, returning how
many characters it consumes (`$` matches at the end of the string or just
before a final newline, but the `\n` alternative fires first there). -/
def titleTermAt (rr : Cs) : Option Nat :=
  match rr with
  | [] => some 0
  | c :: rest =>
      if c = '.' then
        let wsr := rest.takeWhile pyIsSpace
        if wsr.isEmpty then (if c = '\n' then some 1 else none)
        else some (1 + wsr.length)
      else if c = '\n' then some 1
      else none

/-- The non-greedy group `(.+?)` followed by the title terminator:
shortest non-empty run of non-newline characters after which the
terminator matches.  Returns (group length, terminator length). -/
def scanGroup1 : Cs → Option (Nat × Nat)
  | [] => none
  | c :: rest =>
      if c = '\n' then none
      else
        match titleTermAt rest with
        | some t => some (1, t)
        | none => (scanGroup1 rest).map (fun p => (p.1 + 1, p.2))

/-- Backtracking over the `\s*` before the group: try whitespace prefixes
from longest to shortest.  Returns (ws length, group length, term length). -/
def wsBtAux (r3 : Cs) : Nat → Option (Nat × Nat × Nat)
  | 0 => (scanGroup1 r3).map (fun p => (0, p.1, p.2))
  | k + 1 =>
      match scanGroup1 (r3.drop (k + 1)) with
      | some p => some (k + 1, p.1, p.2)
      | none => wsBtAux r3 k

/-- Anchored matcher for the title pattern
`ART[ÍI]CULO\s+\d+(?:\s*(?:bis|...))?\s*[°º]?-\s*(.+?)(?:\.\s+|\n|$)`.
Returns (offset of group 1 from the match start, group 1 length, full
match length). -/
def tryTitleHead (s : Cs) : Option (Nat × Nat × Nat) :=
  match altCI articuloWords s with
  | none => none
  | some (_, r1) =>
    match ws1 r1 with
    | none => none
    | some r2 =>
      firstSome (numCands false r2) (fun gr =>
        match contDegGuionRest gr.2 with
        | none => none
        | some r3 =>
            match wsBtAux r3 (r3.takeWhile pyIsSpace).length with
            | none => none
            | some (w, l1, lt) =>
                let off1 := (s.length - r3.length) + w
                some (off1, l1, off1 + l1 + lt))

/-- `re.search(r'\.\s+', s)` returning the match start. -/
def puntoSearch : Nat → Cs → Option Nat
  | _, [] => none
  | i, c :: r =>
      match r with
      | c2 :: _ => if c = '.' && pyIsSpace c2 then some i else puntoSearch (i + 1) r
      | [] => puntoSearch (i + 1) r

/-- comparar_ley_dictamen.py, extract_title_from_text. -/
def extractTitleFromText (texto : String) : String :=
  if texto.isEmpty then ""
  else
    let cs := texto.data
    match reSearchPos tryTitleHead 0 cs with
    | none => ""
    | some (st0, off1, l1, len0) =>
        let start1 := st0 + off1
        let titulo := pyStrip (String.mk ((cs.drop start1).take l1))
        if titulo.data.getLast? = some '.' then titulo
        else
          let group0 := (cs.drop st0).take len0
          match puntoSearch 0 group0 with
          | some pStart =>
              let fin := st0 + pStart + 1
              pyStrip (String.mk ((cs.drop start1).take (fin - start1)))
          | none => pyStrip (String.mk (titulo.data.takeWhile (fun c => !(c = '\n'))))

/-- Anchored matcher for the header prefix pattern
`ART[ÍI]CULO\s+\d+(?:\s*(?:bis|...))?\s*[°º]?-\s*` used by
parse_article_text; returns the length of the match. -/
def tryEncabezadoPat (s : Cs) : Option Nat :=
  match altCI articuloWords s with
  | none => none
  | some (_, r1) =>
    match ws1 r1 with
    | none => none
    | some r2 =>
      firstSome (numCands false r2) (fun gr =>
        match contDegGuionRest gr.2 with
        | none => none
        | some r3 => some (s.length - (ws0 r3).length))

/-- `re.search(r'\.\s+|\.\n', s)`: a dot followed by at least one
whitespace character (the second alternative is subsumed by the first,
whose `\s+` is greedy).  Returns (start, end). -/
def finTituloSearch : Nat → Cs → Option (Nat × Nat)
  | _, [] => none
  | i, c :: r =>
      match r with
      | c2 :: _ =>
          if c = '.' && pyIsSpace c2 then
            some (i, i + 1 + (r.takeWhile pyIsSpace).length)
          else finTituloSearch (i + 1) r
      | [] => finTituloSearch (i + 1) r

def isAsciiLetter (c : Char) : Bool :=
  ('a' ≤ c && c ≤ 'z') || ('A' ≤ c && c ≤ 'Z')

/-- The character class `[^a-z\)]` under `re.IGNORECASE`: everything but
an ASCII letter or a closing parenthesis. -/
def inG2Class (c : Char) : Bool := !(isAsciiLetter c || c = ')')

/-- The inciso lookahead `(?=\n|$|([a-z])\)|ARTICULO)` (with `MULTILINE`,
`$` also matches just before any newline, which the `\n` branch covers). -/
def incisoLookahead (rr : Cs) : Bool :=
  match rr with
  | [] => true
  | c :: rest =>
      c = '\n' ||
      (isAsciiLetter c &&
        (match rest with
         | c2 :: _ => c2 = ')'
         | [] => false)) ||
      (matchCI "articulo".data rr).isSome

/-- The non-greedy group `([^a-z\)]+?)` up to the lookahead: length of the
shortest non-empty in-class run after which the lookahead holds. -/
def scanG2 : Cs → Option Nat
  | [] => none
  | c :: rest =>
      if inG2Class c then
        if incisoLookahead rest then some 1
        else (scanG2 rest).map (fun n => n + 1)
      else none

/-- Backtracking over the `\s+` after `x)`: whitespace run lengths from
longest to shortest (at least one), each tried against the group 2 scan.
Returns (ws length, group 2 length). -/
def incisoWsAux (rest : Cs) : Nat → Option (Nat × Nat)
  | 0 => none
  | k + 1 =>
      match scanG2 (rest.drop (k + 1)) with
      | some g => some (k + 1, g)
      | none => incisoWsAux rest k

/-- Anchored matcher for one inciso
`([a-z])\)\s+([^a-z\)]+?)(?=...)`: returns (total length, letter,
group 2 text). -/
def incisoTryAt (s : Cs) : Option (Nat × Char × Cs) :=
  match s with
  | l :: p :: rest =>
      if isAsciiLetter l && p = ')' then
        match incisoWsAux rest (rest.takeWhile pyIsSpace).length with
        | some (w, g2len) =>
            some (2 + w + g2len, l, (rest.drop w).take g2len)
        | none => none
      else none
  | _ => none

/-- `finditer` for the inciso pattern: non-overlapping matches, scanning
left to right, resuming after each match end.  Fuel-driven; the fuel
`s.length` suffices since every step consumes at least one character. -/
def incisoFindAllF : Nat → Nat → Cs → List (Nat × Nat × Char × Cs)
  | 0, _, _ => []
  | _ + 1, _, [] => []
  | f + 1, i, c :: r =>
      match incisoTryAt (c :: r) with
      | some (len, letter, g2) =>
          (i, i + len, letter, g2) :: incisoFindAllF f (i + len) ((c :: r).drop len)
      | none => incisoFindAllF f (i + 1) r

def incisoFindAll (s : Cs) : List (Nat × Nat × Char × Cs) :=
  incisoFindAllF s.length 0 s

/-- Removal of the matched spans (given ascending and disjoint, as
`finditer` produces them); `base` is the absolute index of the head. -/
def removeSpans : Cs → Nat → List (Nat × Nat) → Cs
  | cs, _, [] => cs
  | cs, base, (s, e) :: rest =>
      cs.take (s - base) ++ removeSpans (cs.drop (e - base)) e rest

/-- The result dictionary of parse_article_text; an `incisos` key is
present exactly when the list is non-empty, which `incisos = []` encodes. -/
structure Parsed where
  titulo : String := ""
  texto : String := ""
  incisos : List Inciso := []
deriving DecidableEq, Repr

/-- comparar_ley_dictamen.py, parse_article_text.  The argument is the
raw value of `cambio.get('texto_nuevo', '')`; a missing key (`''`) and a
null are both falsy and take the empty branch. -/
def parseArticleText (texto : Option String) : Parsed :=
  match texto with
  | none => {}
  | some t =>
    if t.isEmpty then {}
    else
      let titulo := extractTitleFromText t
      let cs := t.data
      let texto_limpio : Cs :=
        match reSearchPos tryEncabezadoPat 0 cs with
        | none => cs
        | some (st0, endLen) =>
            let inicio := st0 + endLen
            let tail := cs.drop inicio
            let nlBranch : Option Nat :=
              match tail.findIdx? (fun c => c = '\n') with
              | some ni =>
                  if ni < 100 then
                    let linea := pyStrip (String.mk (tail.take ni))
                    if !linea.isEmpty && !(linea.data.getLast? = some ':') &&
                        !(linea.data.getLast? = some ',') then
                      some (inicio + ni + 1)
                    else none
                  else none
              | none => none
            let potential : Option Nat :=
              match finTituloSearch 0 tail with
              | some (fs, fe) => if fs < 100 then some (inicio + fe) else nlBranch
              | none => nlBranch
            match potential with
            | some pe => cs.drop pe
            | none => cs.drop inicio
      let tl := stripCs texto_limpio
      let ms := incisoFindAll tl
      let incisos : List Inciso :=
        ms.filterMap (fun m =>
          let txt := pyStrip (String.mk m.2.2.2)
          if txt.isEmpty then none
          else some { letra := String.mk [pyLowerChar m.2.2.1], texto := txt })
      let tl2 :=
        if ms.isEmpty then tl
        else stripCs (removeSpans tl 0 (ms.map (fun m => (m.1, m.2.1))))
      { titulo := titulo, texto := String.mk tl2, incisos := incisos }

/-! ## comparar_ley_dictamen.py : process_dictamen_changes -/

/-- One value of the `cambios_por_articulo` index. -/
structure Entrada where
  tipo : String
  cambio : Cambio
deriving DecidableEq, Repr

/-- Python-dict insert: overwrite in place, preserving the position of an
existing key, else append. -/
def alInsert {α : Type} (k : String) (v : α) : List (String × α) → List (String × α)
  | [] => [(k, v)]
  | (k2, v2) :: r => if k2 = k then (k, v) :: r else (k2, v2) :: alInsert k v r

def alLookup {α : Type} (k : String) : List (String × α) → Option α
  | [] => none
  | (k2, v) :: r => if k2 = k then some v else alLookup k r

/-- Python-set add as an insertion-ordered duplicate-free list; the code
only consumes membership and cardinality of these sets. -/
def setAdd (x : String) (l : List String) : List String :=
  if x ∈ l then l else l ++ [x]

structure CambiosSt where
  cambios_por_articulo : List (String × Entrada) := []
  incorporaciones : List (Cambio × String) := []
  derogaciones_articulos : List String := []
  derogaciones_capitulos : List (String × List String) := []
  derogacion_total : Bool := false
deriving DecidableEq, Repr

def startsWithCs : Cs → Cs → Bool
  | [], _ => true
  | _ :: _, [] => false
  | p :: ps, c :: s => p = c && startsWithCs ps s

def containsCs (needle : Cs) : Cs → Bool
  | [] => startsWithCs needle []
  | c :: r => startsWithCs needle (c :: r) || containsCs needle r

/-- `str.startswith` / `str.endswith` (kernel-reducible forms). -/
def pyStartsWith (s pre : String) : Bool := startsWithCs pre.data s.data

def pyEndsWith (s suf : String) : Bool := startsWithCs suf.data.reverse s.data.reverse

/-- `str.split(',')` (single-character separator). -/
def splitCommaCs : Cs → List Cs
  | [] => [[]]
  | c :: r =>
      let rest := splitCommaCs r
      if c = ',' then [] :: rest
      else
        match rest with
        | h :: t => (c :: h) :: t
        | [] => [[c]]

/-- One replacement step of `re.sub(r'\s+y\s+', ', ', raw, re.IGNORECASE)`:
anchored match of `\s+y\s+`, returning the rest. -/
def tryYsep (s : Cs) : Option Cs :=
  match s with
  | c :: r =>
      if pyIsSpace c then
        match ws0 r with
        | y :: r2 => if pyLowerChar y = 'y' then ws1 r2 else none
        | [] => none
      else none
  | [] => none

def subYCommaF : Nat → Cs → Cs
  | 0, s => s
  | _ + 1, [] => []
  | f + 1, c :: r =>
      match tryYsep (c :: r) with
      | some rest => ',' :: ' ' :: subYCommaF f rest
      | none => c :: subYCommaF f r

def subYComma (s : Cs) : Cs := subYCommaF s.length s

/-- The multi-target expansion of process_dictamen_changes:
`"10, 16 y 21"` becomes `["10", "16", "21"]`. -/
def expandTargets (raw : String) : List String :=
  if raw.data.contains ',' || containsCs " y ".data (pyLower raw).data then
    ((splitCommaCs (subYComma raw.data)).map (fun cs => pyStrip (String.mk cs))).filter
      (fun t => !t.isEmpty)
  else [pyStrip raw]

/-- The body of the per-target loop of process_dictamen_changes. -/
def procTarget (ley : LeyData) (accion : String) (c : Cambio)
    (st : CambiosSt) (t : String) : CambiosSt :=
  let destino := normalizeArt (some t)
  let existe := (findArticleInLey ley destino none none).isSome
  if accion = "incorpórase" ∨ accion = "incorporase" then
    if existe then
      { st with cambios_por_articulo :=
          alInsert destino ⟨"sustitucion", c⟩ st.cambios_por_articulo }
    else { st with incorporaciones := st.incorporaciones ++ [(c, destino)] }
  else if accion = "derógase" ∨ accion = "derogase" then
    { st with
        derogaciones_articulos := setAdd destino st.derogaciones_articulos,
        cambios_por_articulo :=
          alInsert destino ⟨"derogacion", c⟩ st.cambios_por_articulo }
  else if accion = "sustitúyese" ∨ accion = "sustituyese" ∨
      accion = "modifícase" ∨ accion = "modificase" then
    if existe then
      { st with cambios_por_articulo :=
          alInsert destino ⟨"sustitucion", c⟩ st.cambios_por_articulo }
    else { st with incorporaciones := st.incorporaciones ++ [(c, destino)] }
  else st

/-- One iteration of the main loop of process_dictamen_changes.  The very
first statement of the loop body is `cambio.get('accion', '').lower()`,
which raises `AttributeError` when the field holds an explicit null; that
exception is the `none` outcome. -/
def stepCambio (ley : LeyData) (st : CambiosSt) (c : Cambio) : Option CambiosSt :=
  match c.accion.lowerGetEmpty with
  | none => none
  | some accion =>
    if truthy c.destino_capitulo then
      let dc := alInsert (c.destino_capitulo.getD "") [] st.derogaciones_capitulos
      some { st with derogaciones_capitulos := dc }
    else
      let fallbackTotal : CambiosSt :=
        if accion = "derógase" ∨ accion = "derogase" then
          { st with derogacion_total := true }
        else st
      match getDestinoCmp c with
      | some raw =>
          if raw.isEmpty then some fallbackTotal
          else some ((expandTargets raw).foldl (procTarget ley accion c) st)
      | none => some fallbackTotal

def processAux (ley : LeyData) : CambiosSt → List Cambio → Option CambiosSt
  | st, [] => some st
  | st, c :: r =>
      match stepCambio ley st c with
      | none => none
      | some st2 => processAux ley st2 r

/-- comparar_ley_dictamen.py, process_dictamen_changes. -/
def processDictamenChanges (d : List Cambio) (ley : LeyData) : Option CambiosSt :=
  processAux ley {} d

/-! ## comparar_ley_dictamen.py : apply_changes_to_article -/

/-- An article of the comparison tree: the copied original payload plus
the annotation keys the engine may add (a `none` annotation is an absent
key; for `accion` it can also be a copied null, a distinction no consumer
reads). -/
structure ArticuloCmp where
  base : Articulo
  estado : Option String := none
  texto_original : Option String := none
  texto_nuevo : Option String := none
  titulo_nuevo : Option String := none
  incisos_nuevos : Option (List Inciso) := none
  incisos_originales : Option (List Inciso) := none
  accion : Option String := none
  dictamen_articulo : Option String := none
deriving DecidableEq, Repr

/-- `cambio.get('accion', default)`: the default fires only for a missing
key; a present null is copied through. -/
def accionGetD (a : StrField) (dflt : String) : Option String :=
  match a with
  | .missing => some dflt
  | .null => none
  | .str s => some s

/-- comparar_ley_dictamen.py, apply_changes_to_article. -/
def applyChangesToArticle (art : Articulo) (st : CambiosSt) : ArticuloCmp :=
  let numero := normalizeArt art.numero
  match alLookup numero st.cambios_por_articulo with
  | some e =>
      if e.tipo = "sustitucion" then
        let parsed := parseArticleText e.cambio.texto_nuevo
        { base := art
          estado := some "sustituido"
          texto_original := some (art.texto.getD "")
          texto_nuevo := some parsed.texto
          titulo_nuevo := if parsed.titulo.isEmpty then none else some parsed.titulo
          incisos_nuevos := if parsed.incisos.isEmpty then none else some parsed.incisos
          incisos_originales := if parsed.incisos.isEmpty then none else some art.incisos
          accion := accionGetD e.cambio.accion "sustitúyese"
          dictamen_articulo := e.cambio.dictamen_articulo }
      else if e.tipo = "derogacion" then
        { base := art
          estado := some "derogado"
          accion := accionGetD e.cambio.accion "derógase"
          dictamen_articulo := e.cambio.dictamen_articulo }
      else { base := art }
  | none => { base := art, estado := some "sin_cambios" }

example : parseArticleText none = {} := rfl

example : extractTitleFromText "ARTÍCULO 5- Algo" = "Algo" := by decide

example :
    (parseArticleText (some "ARTÍCULO 2°- Ámbito. La vigencia es total.")).texto =
      "La vigencia es total." := by decide

/-! ## comparar_ley_dictamen.py : find_titulo_for_article -/

def digitsToNat (ds : Cs) : Nat :=
  ds.foldl (fun acc c => acc * 10 + (c.toNat - 48)) 0

/-- `extract_base_number`: `int(re.match(r'^(\d+)', s).group(1))` if the
string starts with digits, else 0 (the code returns 0 on no match, so the
surrounding try/except never fires). -/
def extractBaseNumber (s : String) : Nat :=
  let ds := s.data.takeWhile Char.isDigit
  if ds.isEmpty then 0 else digitsToNat ds

/-- Base numbers of every article of a title (direct ones first, then the
chapters), exactly the values fed to the min/max accumulation. -/
def tituloBases (t : Titulo) : List Nat :=
  t.articulos.map (fun a => extractBaseNumber (normalizeArt a.numero)) ++
    t.capitulos.foldr
      (fun c acc =>
        c.articulos.map (fun a => extractBaseNumber (normalizeArt a.numero)) ++ acc)
      []

def minMax (l : List Nat) : Option (Nat × Nat) :=
  match l with
  | [] => none
  | x :: r => some (r.foldl (fun p b => (Nat.min p.1 b, Nat.max p.2 b)) (x, x))

/-- comparar_ley_dictamen.py, find_titulo_for_article. -/
def findTituloForArticle (ley : LeyData) (numero : String) : Option Titulo :=
  let target := extractBaseNumber (pyStrip numero)
  let ranges : List (Titulo × Nat × Nat) :=
    ley.titulos.filterMap (fun t =>
      (minMax (tituloBases t)).map (fun mm => (t, mm.1, mm.2)))
  match ranges.find? (fun r => decide (r.2.1 ≤ target) && decide (target ≤ r.2.2)) with
  | some r => some r.1
  | none =>
      let best : Option (Titulo × Nat × Nat) :=
        ranges.foldl
          (fun acc r =>
            if r.2.2 < target then
              match acc with
              | none => some r
              | some b => if b.2.2 < r.2.2 then some r else some b
            else acc)
          none
      match best with
      | some b => some b.1
      | none =>
          match ranges.getLast? with
          | some r => some r.1
          | none => none

/-! ## comparar_ley_dictamen.py : process_incorporated_articles -/

/-- One element of `articulos_incorporados` (before insertion; the
`titulo_destino_numero` key is dropped by the clean copy on insertion). -/
structure ArtInc where
  numero : String
  titulo : String
  texto : String
  estado : String
  accion : Option String
  dictamen_articulo : Option String
  incisos : List Inciso
  titulo_destino_numero : Option String
deriving DecidableEq, Repr

/-- comparar_ley_dictamen.py, process_incorporated_articles. -/
def processIncorporatedArticles (incs : List (Cambio × String)) (ley : LeyData) :
    List ArtInc :=
  incs.filterMap (fun p =>
    if (findArticleInLey ley p.2 none none).isSome then none
    else
      let parsed := parseArticleText p.1.texto_nuevo
      let td := findTituloForArticle ley p.2
      some { numero := p.2
             titulo := parsed.titulo
             texto := parsed.texto
             estado := "incorporado"
             accion := accionGetD p.1.accion "incorpórase"
             dictamen_articulo := p.1.dictamen_articulo
             incisos := parsed.incisos
             titulo_destino_numero :=
               match td with
               | some t => t.numero
               | none => none })

/-! ## comparar_ley_dictamen.py : comparar_ley_dictamen_objects -/

structure CapituloCmp where
  numero : Option String := none
  nombre : Option String := none
  estado : Option String := none
  articulos : List ArticuloCmp := []
deriving DecidableEq, Repr

structure TituloCmp where
  numero : Option String := none
  nombre : Option String := none
  estado : Option String := none
  articulos : List ArticuloCmp := []
  capitulos : List CapituloCmp := []
deriving DecidableEq, Repr

structure Metadatos where
  ley_origen : String
  dictamen_origen : String
  total_sustituciones : Nat
  total_incorporaciones : Nat
  total_derogaciones : Nat
  capitulos_derogados : List String
  derogacion_total : Bool
deriving DecidableEq, Repr

structure Comparacion where
  estado_ley : Option String := none
  titulos : List TituloCmp := []
  metadatos : Metadatos
deriving DecidableEq, Repr

def marcarArticuloDerogTotal (a : Articulo) : ArticuloCmp :=
  { base := a, estado := some "derogado", accion := some "derógase (ley completa)" }

def marcarArticuloCapDerog (a : Articulo) : ArticuloCmp :=
  { base := a, estado := some "derogado", accion := some "derógase (capítulo completo)" }

/-- The per-chapter body of the traversal of comparar_ley_dictamen_objects
(whole-law derogation, chapter-wide derogation, or article-wise changes). -/
def capComparado (derogTotal : Bool) (st : CambiosSt) (c : Capitulo) : CapituloCmp :=
  let capNum := normalizeArt c.numero
  if derogTotal then
    { numero := c.numero, nombre := c.nombre, estado := some "derogado",
      articulos := c.articulos.map marcarArticuloDerogTotal }
  else if (alLookup capNum st.derogaciones_capitulos).isSome then
    { numero := c.numero, nombre := c.nombre, estado := some "derogado",
      articulos := c.articulos.map marcarArticuloCapDerog }
  else
    { numero := c.numero, nombre := c.nombre,
      articulos := c.articulos.map (fun a => applyChangesToArticle a st) }

/-- The per-title body of the traversal of comparar_ley_dictamen_objects. -/
def tituloComparado (derogTotal : Bool) (st : CambiosSt) (t : Titulo) : TituloCmp :=
  { numero := t.numero, nombre := t.nombre,
    estado := if derogTotal then some "derogado" else none,
    articulos := t.articulos.map (fun a =>
      if derogTotal then marcarArticuloDerogTotal a else applyChangesToArticle a st),
    capitulos := t.capitulos.map (capComparado derogTotal st) }

/-- The sort key of the insertion phase: (numeric base, ordinal-suffix
rank), with unparsable numbers sent to the end via (999999, 0). -/
def suffixRank (s : String) : Nat :=
  if s = "bis" then 1 else if s = "ter" then 2 else if s = "quater" then 3
  else if s = "quinquies" then 4 else if s = "sexies" then 5
  else if s = "septies" then 6 else if s = "octies" then 7
  else if s = "nonies" then 8 else if s = "decies" then 9 else 0

def sortKey (a : ArticuloCmp) : Nat × Nat :=
  let num := normalizeArt (some (a.base.numero.getD ""))
  match digits1 num.data with
  | some (ds, r1) =>
      let suffix :=
        match altCI sufijos (ws0 r1) with
        | some (w, _) => pyLower (String.mk w)
        | none => ""
      (digitsToNat ds, suffixRank suffix)
  | none => (999999, 0)

/-- Lexicographic comparison of sort keys (Python tuple ordering). -/
def keyLe (a b : Nat × Nat) : Bool :=
  decide (a.1 < b.1) || (decide (a.1 = b.1) && decide (a.2 ≤ b.2))

def artLe (a b : ArticuloCmp) : Prop := keyLe (sortKey a) (sortKey b) = true

instance : DecidableRel artLe := fun a b => by unfold artLe; infer_instance

/-- `list.sort(key=sort_key)`: Python uses a stable sort; the stable
insertion sort by the same key produces the identical list. -/
def sortArticulos (l : List ArticuloCmp) : List ArticuloCmp :=
  List.insertionSort artLe l

/-- The clean copy inserted into the tree (`art_inc` minus the
`titulo_destino_numero` key). -/
def artIncClean (i : ArtInc) : ArticuloCmp :=
  { base := { numero := some i.numero, titulo := some i.titulo,
              texto := some i.texto, incisos := i.incisos },
    estado := some i.estado,
    accion := i.accion,
    dictamen_articulo := i.dictamen_articulo }

def alAppendGroup (k : String) (v : ArtInc) :
    List (String × List ArtInc) → List (String × List ArtInc)
  | [] => [(k, [v])]
  | (k2, l) :: r =>
      if k2 = k then (k2, l ++ [v]) :: r else (k2, l) :: alAppendGroup k v r

/-- `incorporados_por_titulo`: grouping by truthy destination title. -/
def gruposInc (incs : List ArtInc) : List (String × List ArtInc) :=
  incs.foldl
    (fun acc a =>
      match a.titulo_destino_numero with
      | some tn => if tn.isEmpty then acc else alAppendGroup tn a acc
      | none => acc)
    []

def baseNumOpt (s : String) : Option Nat :=
  let ds := s.data.takeWhile Char.isDigit
  if ds.isEmpty then none else some (digitsToNat ds)

/-- The base-number match that decides insertion next to an existing
article of a chapter; the except clause of the source maps a digitless
number to no match. -/
def chapterArtMatch (artNum : String) (arts : List ArticuloCmp) : Bool :=
  match baseNumOpt artNum with
  | none => false
  | some bi =>
      arts.any (fun a =>
        match baseNumOpt (normalizeArt (some (a.base.numero.getD ""))) with
        | none => false
        | some be => decide (bi = be) || (pyEndsWith artNum "bis" && decide (bi = be)))

/-- First article of the group that base-matches this chapter is appended
(the inner loops break at the first match). -/
def capInsertFirst : List ArtInc → CapituloCmp → CapituloCmp × Bool
  | [], cap => (cap, false)
  | g :: gs, cap =>
      if chapterArtMatch (normalizeArt (some g.numero)) cap.articulos then
        ({ cap with articulos := cap.articulos ++ [artIncClean g] }, true)
      else capInsertFirst gs cap

/-- One chapter of the insertion loop.  Once `inserted_in_chapter` is set,
each later chapter only examines the first group element and its art_inc
loop breaks immediately afterwards — the flag is never reset inside a
title, a quirk of the source preserved here. -/
def capInsertStep (grupo : List ArtInc) (flag : Bool) (cap : CapituloCmp) :
    CapituloCmp × Bool :=
  if cap.articulos.isEmpty then (cap, flag)
  else if flag then
    match grupo with
    | [] => (cap, flag)
    | g0 :: _ =>
        if chapterArtMatch (normalizeArt (some g0.numero)) cap.articulos then
          ({ cap with articulos := cap.articulos ++ [artIncClean g0] }, true)
        else (cap, true)
  else capInsertFirst grupo cap

def capsInsert (grupo : List ArtInc) : List CapituloCmp → Bool → List CapituloCmp × Bool
  | [], flag => ([], flag)
  | cap :: rest, flag =>
      let s1 := capInsertStep grupo flag cap
      let s2 := capsInsert grupo rest s1.2
      (s1.1 :: s2.1, s2.2)

def numeroInCaps (n : String) (caps : List CapituloCmp) : Bool :=
  caps.any (fun c =>
    c.articulos.any (fun a => normalizeArt (some (a.base.numero.getD "")) == n))

/-- The fallback that appends group members to the direct article list of
the title (skipped entirely when a chapter insertion happened). -/
def directAppend (grupo : List ArtInc) (t : TituloCmp) : TituloCmp :=
  grupo.foldl
    (fun acc g =>
      if numeroInCaps (normalizeArt (some g.numero)) acc.capitulos then acc
      else { acc with articulos := acc.articulos ++ [artIncClean g] })
    t

/-- The insertion-and-sort phase for one title of the output tree. -/
def tituloInsert (grupos : List (String × List ArtInc)) (t : TituloCmp) : TituloCmp :=
  match alLookup (pyStr t.numero) grupos with
  | none => t
  | some grupo =>
      let cs := capsInsert grupo t.capitulos false
      let t2 : TituloCmp := { t with capitulos := cs.1 }
      let t3 := if cs.2 then t2 else directAppend grupo t2
      let t4 : TituloCmp :=
        if t3.articulos.isEmpty then t3
        else { t3 with articulos := sortArticulos t3.articulos }
      let caps3 := t4.capitulos.map (fun c =>
        if c.articulos.isEmpty then c
        else { c with articulos := sortArticulos c.articulos })
      { t4 with capitulos := caps3 }

/-- comparar_ley_dictamen.py, comparar_ley_dictamen_objects. -/
def compararLeyDictamenObjects (ley : LeyData) (d : List Cambio)
    (leySrc dictSrc : String) : Option Comparacion :=
  match processDictamenChanges d ley with
  | none => none
  | some st =>
      let titulos1 := ley.titulos.map (tituloComparado st.derogacion_total st)
      let artsInc := processIncorporatedArticles st.incorporaciones ley
      let titulos2 :=
        if artsInc.isEmpty then titulos1
        else titulos1.map (tituloInsert (gruposInc artsInc))
      let sustCount :=
        (st.cambios_por_articulo.filter (fun p => p.2.tipo = "sustitucion")).length
      some
        { estado_ley :=
            if st.derogacion_total then some "DEROGADA (POR DICTAMEN)" else none
          titulos := titulos2
          metadatos :=
            { ley_origen := leySrc
              dictamen_origen := dictSrc
              total_sustituciones := sustCount
              total_incorporaciones := st.incorporaciones.length
              total_derogaciones := st.derogaciones_articulos.length
              capitulos_derogados := st.derogaciones_capitulos.map (fun p => p.1)
              derogacion_total := st.derogacion_total } }


/-! ## matcher.py : find_articles_in_chapter and process_dictamen_data -/

/-- Decimal rendering of a natural number (small, kernel-reducible). -/
def natDigits : Nat → Nat → Cs
  | 0, _ => []
  | _ + 1, 0 => []
  | f + 1, n => natDigits f (n / 10) ++ [Char.ofNat (48 + n % 10)]

def natToStr (n : Nat) : String :=
  if n = 0 then "0" else String.mk (natDigits (n + 1) n)

/-- matcher.py, find_articles_in_chapter: per-article identifiers of the
chapter whose number equals the target up to upper-casing; unnumbered
articles (empty, S/N or the literal "null") get positional CAP ids. -/
def findArticlesInChapterM (ley : LeyData) (capNum : String) : List String :=
  ley.titulos.foldl
    (fun acc t =>
      acc ++ t.capitulos.foldl
        (fun acc2 c =>
          if pyUpper (c.numero.getD "") == pyUpper capNum && !c.articulos.isEmpty then
            acc2 ++ c.articulos.enum.map (fun p =>
              let numero := pyStrip (p.2.numero.getD "")
              if numero = "" || pyUpper numero = "S/N" || numero = "null" then
                "CAP_" ++ capNum ++ "_ART_" ++ natToStr (p.1 + 1)
              else numero)
          else acc2)
        [])
    []

/-- One element of the matcher incorporated-article list. -/
structure IncArtM where
  numero : String
  titulo : String
  texto : String
  isIncorporated : Bool
  tituloNumero : String
  tituloNombre : String
deriving DecidableEq, Repr

/-- Non-greedy group scan up to the terminator `(?:\n|$)`:
shortest non-empty run of non-newline characters. -/
def scanGroupNl : Cs → Option Nat
  | [] => none
  | c :: rest =>
      if c = '\n' then none
      else
        if (match rest with
            | [] => true
            | c2 :: _ => c2 = '\n') then some 1
        else (scanGroupNl rest).map (fun n => n + 1)

def wsBtNl (r3 : Cs) : Nat → Option (Nat × Nat)
  | 0 => (scanGroupNl r3).map (fun g => (0, g))
  | k + 1 =>
      match scanGroupNl (r3.drop (k + 1)) with
      | some g => some (k + 1, g)
      | none => wsBtNl r3 k

/-- Anchored matcher for the matcher title pattern
`ART[ÍI]CULO\s+\d+(?:\s*(?:bis|...))?\s*[°º]?-\s*(.+?)(?:\n|$)`,
returning group 1. -/
def tryTitleHeadNl (s : Cs) : Option Cs :=
  match altCI articuloWords s with
  | none => none
  | some (_, r1) =>
    match ws1 r1 with
    | none => none
    | some r2 =>
      firstSome (numCands false r2) (fun gr =>
        match contDegGuionRest gr.2 with
        | none => none
        | some r3 =>
            match wsBtNl r3 (r3.takeWhile pyIsSpace).length with
            | none => none
            | some (w, g) => some ((r3.drop w).take g))

/-- matcher.py, get_incorporated_articles. -/
def getIncorporatedArticles (d : List Cambio) (ley : LeyData) : List IncArtM :=
  d.filterMap (fun c =>
    if c.accion.getOpt = some "incorpórase" || c.accion.getOpt = some "incorporase" then
      match getDestinoM c with
      | none => none
      | some destino =>
          if destino.isEmpty then none
          else
            let existsInLaw :=
              ley.titulos.any (fun t =>
                t.articulos.any (fun a => pyStr a.numero == destino) ||
                t.capitulos.any (fun cap =>
                  cap.articulos.any (fun a => pyStr a.numero == destino)))
            if existsInLaw then none
            else
              let titulo :=
                match c.texto_nuevo with
                | some tn =>
                    if tn.isEmpty then ""
                    else
                      match reSearch tryTitleHeadNl tn.data with
                      | some g1 =>
                          let t0 := pyStrip (String.mk g1)
                          pyStrip (String.mk (t0.data.takeWhile (fun ch => !(ch = '\n'))))
                      | none => ""
                | none => ""
              some { numero := destino
                     titulo := titulo
                     texto := (c.texto_nuevo.getD "")
                     isIncorporated := true
                     tituloNumero := "I"
                     tituloNombre := "Disposiciones Generales" }
    else none)

structure MatchResult where
  modified_articles : List String := []
  derogated_articles : List String := []
  derogated_chapters : List (String × List String) := []
  incorporated_articles : List IncArtM := []
deriving DecidableEq, Repr

/-- `set(xs)` as an insertion-ordered duplicate-free list. -/
def listDedup (l : List String) : List String :=
  l.foldl (fun acc x => setAdd x acc) []

/-- The synthetic identifiers CAP_VIII_ART_1 .. CAP_VIII_ART_7. -/
def syntheticVIII : List String :=
  (List.range 7).map (fun i => "CAP_VIII_ART_" ++ natToStr (i + 1))

/-- One iteration of the loop of matcher.process_dictamen_data. -/
def stepMatchData (ley : LeyData) (st : MatchResult) (c : Cambio) : MatchResult :=
  if truthy c.destino_capitulo then
    let capN := c.destino_capitulo.getD ""
    let arts := findArticlesInChapterM ley capN
    let st1 : MatchResult :=
      { st with
          derogated_chapters := alInsert capN (listDedup arts) st.derogated_chapters
          modified_articles := arts.foldl (fun acc a => setAdd a acc) st.modified_articles
          derogated_articles := arts.foldl (fun acc a => setAdd a acc) st.derogated_articles }
    if arts.length = 0 then
      if pyUpper capN = "VIII" then
        { st1 with
            modified_articles :=
              syntheticVIII.foldl (fun acc a => setAdd a acc) st1.modified_articles
            derogated_articles :=
              syntheticVIII.foldl (fun acc a => setAdd a acc) st1.derogated_articles
            derogated_chapters :=
              alInsert capN (listDedup syntheticVIII) st1.derogated_chapters }
      else st1
    else st1
  else
    match getDestinoM c with
    | none => st
    | some destino =>
        if destino.isEmpty then st
        else
          let st1 := { st with modified_articles := setAdd destino st.modified_articles }
          if c.accion.getOpt = some "derógase" || c.accion.getOpt = some "derogase" then
            { st1 with derogated_articles := setAdd destino st1.derogated_articles }
          else st1

/-- matcher.py, process_dictamen_data. -/
def processDictamenData (d : List Cambio) (ley : LeyData) : MatchResult :=
  let base := d.foldl (stepMatchData ley) {}
  { base with incorporated_articles := getIncorporatedArticles d ley }

/-! ## matcher.py : get_derogated_chapter_articles -/

/-- Case-sensitive literal prefix match, returning the rest. -/
def matchCS : Cs → Cs → Option Cs
  | [], s => some s
  | _ :: _, [] => none
  | p :: ps, c :: s => if p = c then matchCS ps s else none

/-- Greedy split for `re.match(r"CAP_(\w+)_ART_(\d+)", s)` after the
literal `CAP_`: longest word-character prefix followed by `_ART_` and at
least one digit wins. -/
def capSplitAux (t : Cs) : Nat → Option (String × Nat)
  | 0 => none
  | k + 1 =>
      let g1 := t.take (k + 1)
      if g1.all pyIsWordChar then
        match matchCS "_ART_".data (t.drop (k + 1)) with
        | some r2 =>
            match digits1 r2 with
            | some (ds, _) => some (String.mk g1, digitsToNat ds)
            | none => capSplitAux t k
        | none => capSplitAux t k
      else capSplitAux t k

def capIdParse (s : String) : Option (String × Nat) :=
  match matchCS "CAP_".data s.data with
  | none => none
  | some rest => capSplitAux rest rest.length

/-- One element of the derogated-chapter article list the matcher
synthesizes. -/
structure DerogArtM where
  numero : String
  titulo : String
  texto : String
  isDerogated : Bool
  tituloNumero : String
  tituloNombre : String
  capituloNumero : String
  capituloNombre : String
deriving DecidableEq, Repr

/-- The fixed fallback text table for Chapter VIII (matcher.py). -/
def textosCapVIII : List String :=
  ["La promoción profesional y la formación en el trabajo, en condiciones igualitarias de acceso y trato será un derecho fundamental para todos los trabajadores y trabajadoras.",
   "El empleador implementará acciones de formación profesional profesional y/o capacitación con la participación de los trabajadores y con la asistencia de los organismos competentes al Estado.",
   "La capacitación del trabajador se efectuará de acuerdo a los requerimientos del empleador, a las características de las tareas, a las exigencias de la organización del trabajo y a los medios que le provea el empleador para dicha capacitación.",
   "La organización sindical que represente a los trabajadores de conformidad a la legislación vigente tendrá derecho a recibir información sobre la evolución de la empresa, sobre innovaciones tecnológicas y organizativas y toda otra que tenga relación con la planificación de acciones de formación y capacitación profesional.",
   "La organización sindical que represente a los trabajadores de conformidad a la legislación vigente ante innovaciones de base tecnológica y organizativa de la empresa, podrá solicitar al empleador la implementación de acciones de formación profesional para la mejor adecuación del personal al nuevo sistema.",
   "En el certificado de trabajo que el empleador está obligado a entregar a la extinción del contrato de trabajo deberá constar además de lo prescripto en el artículo 80, la calificación profesional obtenida en el o los puestos de trabajo desempeñados, hubiere o no realizado el trabajador acciones regulares de capacitación.",
   "El trabajador tendrá derecho a una cantidad de horas del tiempo total anual del trabajo, de acuerdo a lo que se establezca en el convenio colectivo, para realizar, fuera de su lugar de trabajo actividades de formación y/o capacitación que él juzgue de su propio interés."]

/-- matcher.py, get_derogated_chapter_articles.  The `ley` argument of the
source is unused; synthetic records are produced only for Chapter VIII
identifiers with index at most 7.  The set stored per chapter is iterated
here in insertion order (Python set order is unspecified; no consumer
depends on it). -/
def getDerogatedChapterArticles (dch : List (String × List String))
    (ley : LeyData) : List DerogArtM :=
  dch.foldl
    (fun acc p =>
      acc ++ p.2.filterMap (fun artId =>
        if pyStartsWith artId "CAP_" then
          match capIdParse artId with
          | some (capNum, idx) =>
              if capNum = "VIII" then
                if idx ≤ 7 then
                  some { numero := artId
                         titulo := ""
                         texto := textosCapVIII.getD (idx - 1) ""
                         isDerogated := true
                         tituloNumero := "III"
                         tituloNombre := "De los derechos y obligaciones de las partes"
                         capituloNumero := "VIII"
                         capituloNombre := "DE LA FORMACIÓN PROFESIONAL" }
                else none
              else none
          | none => none
        else none))
    []

/-! ## parsers/dictamen/parser.py : pattern scanners

The parser embedding is projected onto the fields that carry the
operation target: `dictamen_articulo`, `titulo`, `accion` and the four
`destino_*` fields.  The dropped pieces — `texto_completo`, the stored
`encabezado`/intermediate text, `ley_afectada` (extraer_ley_mejorada),
`tipo`, `descripcion` and `texto_modificacion` — are only ever written
from the retained data and never feed back into any target field or into
the control flow of the state machine, which is translated in full. -/

/-- Case-sensitive boundary-checked scan (`\b` before a pattern starting
with a word character): the previous character, when any, must not be a
word character. -/
def searchWB {β : Type} (tryAt : Cs → Option β) : Option Char → Cs → Option β
  | _, [] => none
  | prev, c :: r =>
      let ok := match prev with
        | none => true
        | some p => !pyIsWordChar p
      ((if ok then tryAt (c :: r) else none)).orElse
        (fun _ => searchWB tryAt (some c) r)

/-- The operative verbs of OP_VERB_RE, in source order. -/
def opVerbs : List Cs :=
  ["sustitúyese".data, "sustituyese".data, "incorpórase".data, "incorporase".data,
   "derógase".data, "derogase".data, "modifícase".data, "modificase".data,
   "créase".data, "crease".data, "suprímese".data, "suprimese".data,
   "reemplázase".data, "reemplazase".data]

/-- Anchored `\b(verb|...)\b`: each alternative in order, with the
trailing word boundary. -/
def opVerbTry (s : Cs) : Option String :=
  firstSome opVerbs (fun v =>
    match matchCI v s with
    | some (w, rest) =>
        (match rest with
         | [] => some (String.mk w)
         | c :: _ => if pyIsWordChar c then none else some (String.mk w))
    | none => none)

/-- `OP_VERB_RE.search`. -/
def opVerbSearch (s : String) : Option String := searchWB opVerbTry none s.data

/-- Anchored matcher for HEADER_RE
`^\s*ART[ÍI]CULO\s+([0-9]+(?:\s*(?:bis|...))?)\s*[°º]?\s*[-–—]\s*(.*)\s*$`,
returning (group 1, group 2).  The greedy `(.*)` keeps trailing blanks
(callers strip); input lines carry no newline. -/
def headerTry (cs : Cs) : Option (String × String) :=
  match altCI articuloWords (ws0 cs) with
  | none => none
  | some (_, r1) =>
    match ws1 r1 with
    | none => none
    | some r2 =>
      firstSome (numCands false r2) (fun gr =>
        let afterDeg : Cs → Option Cs := fun rr =>
          match rr with
          | c :: rest => if c = '-' || c = '–' || c = '—' then some rest else none
          | [] => none
        let r3 := ws0 gr.2
        let dashRest : Option Cs :=
          match r3 with
          | c :: rest =>
              if c = '°' || c = 'º' then
                (afterDeg (ws0 rest)).orElse (fun _ => afterDeg r3)
              else afterDeg r3
          | [] => none
        match dashRest with
        | none => none
        | some r4 => some (String.mk gr.1, String.mk (ws0 r4)))

def structWords : List Cs :=
  ["título".data, "titulo".data, "capítulo".data, "capitulo".data,
   "sección".data, "seccion".data, "anexo".data]

/-- STRUCT_RE `^\s*(T[ÍI]TULO|CAP[ÍI]TULO|SECCI[ÓO]N|ANEXO)\b`. -/
def structMatch (line : String) : Bool :=
  match altCI structWords (ws0 line.data) with
  | some (_, rest) =>
      (match rest with
       | [] => true
       | c :: _ => !pyIsWordChar c)
  | none => false

/-- The roman-numeral class `[IVXLCDM]` under IGNORECASE. -/
def isRomanChar (c : Char) : Bool :=
  pyLowerChar c ∈ ['i', 'v', 'x', 'l', 'c', 'd', 'm']

def romanBack (r2 : Cs) : Nat → Option String
  | 0 => none
  | k + 1 =>
      let ok :=
        match r2.drop (k + 1) with
        | [] => true
        | c :: _ => !pyIsWordChar c
      if ok then some (String.mk (r2.take (k + 1))) else romanBack r2 k

def digitsBack (r2 : Cs) : Nat → Option String
  | 0 => none
  | k + 1 =>
      let ok :=
        match r2.drop (k + 1) with
        | [] => true
        | c :: _ => !pyIsWordChar c
      if ok then some (String.mk (r2.take (k + 1))) else digitsBack r2 k

/-- `([IVXLCDM]+|[0-9]+)\b`: the roman alternative with all its
backtracking first, then the digit alternative. -/
def romanOrDigitsB (r2 : Cs) : Option String :=
  match romanBack r2 (r2.takeWhile isRomanChar).length with
  | some g => some g
  | none => digitsBack r2 (r2.takeWhile Char.isDigit).length

/-- Anchored core of TITULO_RE after the leading `\s*` or `\b`:
`T[ÍI]TULO\s+([IVXLCDM]+|[0-9]+)\b`. -/
def tituloTryCore (s : Cs) : Option String :=
  match altCI ["título".data, "titulo".data] s with
  | none => none
  | some (_, r1) =>
    match ws1 r1 with
    | none => none
    | some r2 => romanOrDigitsB r2

/-- TITULO_RE (anchored match, leading `^\s*`). -/
def tituloMatch (line : String) : Option String := tituloTryCore (ws0 line.data)

/-- TITULO_RE_ANYWHERE (`\bT[ÍI]TULO...`, searched anywhere). -/
def tituloAnywhere (line : String) : Option String :=
  searchWB tituloTryCore none line.data

/-- `w1\s+w2\s+...\s+wn` for a list of lower-cased literal words. -/
def chainWords : List Cs → Cs → Option Cs
  | [], s => some s
  | [w], s => (matchCI w s).map (fun p => p.2)
  | w :: ws, s =>
      match matchCI w s with
      | some (_, r) =>
          match ws1 r with
          | some r2 => chainWords ws r2
          | none => none
      | none => none

/-- Anchored TRIGGER_RE: the alternatives in source order (the fourth
duplicates the first), each ending in `\s*:`; returns the rest after the
colon. -/
def trigTryAt (s : Cs) : Option Cs :=
  let fin : Cs → Option Cs := fun r =>
    match ws0 r with
    | c :: rest => if c = ':' then some rest else none
    | [] => none
  ((chainWords ["por".data, "el".data, "siguiente".data] s).bind fin).orElse fun _ =>
  ((chainWords ["el".data, "siguiente".data, "texto".data] s).bind fin).orElse fun _ =>
  ((chainWords ["por".data, "el".data, "siguiente".data, "texto".data] s).bind fin)

/-- `TRIGGER_RE.search` with the before/after split the state machine
needs (`line[:mt.start()]` and `line[mt.end():]`). -/
def trigSplitAux : Cs → Cs → Option (Cs × Cs)
  | _, [] => none
  | acc, c :: r =>
      match trigTryAt (c :: r) with
      | some rest => some (acc.reverse, rest)
      | none => trigSplitAux (c :: acc) r

def triggerSplit (line : String) : Option (String × String) :=
  (trigSplitAux [] line.data).map (fun p => (String.mk p.1, String.mk p.2))

/-- TARGET_CAPITULO_RE
`der[óo]gase\s+el\s+cap[íi]tulo\s+([IVXLCDM]+|[0-9]+)` (no trailing
boundary). -/
def tryCapDerog (s : Cs) : Option String :=
  match altCI ["derógase".data, "derogase".data] s with
  | none => none
  | some (_, r1) =>
    match ws1 r1 with
    | none => none
    | some r2 =>
      match matchCI "el".data r2 with
      | none => none
      | some (_, r3) =>
        match ws1 r3 with
        | none => none
        | some r4 =>
          match altCI ["capítulo".data, "capitulo".data] r4 with
          | none => none
          | some (_, r5) =>
            match ws1 r5 with
            | none => none
            | some r6 =>
                let rom := r6.takeWhile isRomanChar
                if !rom.isEmpty then some (String.mk rom)
                else
                  match digits1 r6 with
                  | some (ds, _) => some (String.mk ds)
                  | none => none

/-- TARGET_INCISO_RE
`inciso\s+([a-z])\)\s+del\s+art[íi]culo\s+([0-9]+)\s*[°º]?`; returns the
letter (original case) and the parent digits. -/
def tryInciso (s : Cs) : Option (Char × String) :=
  match matchCI "inciso".data s with
  | none => none
  | some (_, r1) =>
    match ws1 r1 with
    | none => none
    | some r2 =>
      match r2 with
      | l :: p :: r3 =>
          if isAsciiLetter l && p = ')' then
            match ws1 r3 with
            | none => none
            | some r4 =>
              match matchCI "del".data r4 with
              | none => none
              | some (_, r5) =>
                match ws1 r5 with
                | none => none
                | some r6 =>
                  match altCI articuloWords r6 with
                  | none => none
                  | some (_, r7) =>
                    match ws1 r7 with
                    | none => none
                    | some r8 =>
                      match digits1 r8 with
                      | some (ds, _) => some (l, String.mk ds)
                      | none => none
          else none
      | _ => none

/-- TARGET_ART_AFTER_VERB_RE: one of the five verbs, then
`\s+el\s+art[íi]culo\s+` and the suffix number group. -/
def tryArtAfterVerb (s : Cs) : Option String :=
  match altCI ["sustitúyese".data, "sustituyese".data, "derógase".data,
               "derogase".data, "modifícase".data, "modificase".data,
               "suprímese".data, "suprimese".data, "reemplázase".data,
               "reemplazase".data] s with
  | none => none
  | some (_, r1) =>
    match ws1 r1 with
    | none => none
    | some r2 =>
      match matchCI "el".data r2 with
      | none => none
      | some (_, r3) =>
        match ws1 r3 with
        | none => none
        | some r4 =>
          match altCI articuloWords r4 with
          | none => none
          | some (_, r5) =>
            match ws1 r5 with
            | none => none
            | some r6 =>
              match numCands false r6 with
              | [] => none
              | (g, _) :: _ => some (pyStrip (String.mk g))

/-! ## parser.py : parse_action_and_target and construir_objetivo_accion -/

/-- The target-bearing output of parse_action_and_target (the
`ley_numero` key, which only feeds the law-resolution heuristics, is
omitted; see the section header). -/
structure TargetMeta where
  accion : Option String := none
  destino_articulo : Option String := none
  destino_inciso : Option String := none
  destino_articulo_padre : Option String := none
  destino_capitulo : Option String := none
deriving DecidableEq, Repr

/-- parser.py, parse_action_and_target (target projection). -/
def parseActionAndTarget (header : String) : TargetMeta :=
  let accion := (opVerbSearch header).map pyLower
  let capHit : Option String :=
    if accion = some "derógase" || accion = some "derogase" then
      reSearch tryCapDerog header.data
    else none
  match capHit with
  | some cap => { accion := accion, destino_capitulo := some (pyStrip cap) }
  | none =>
    match reSearch tryInciso header.data with
    | some (l, padre) =>
        { accion := accion,
          destino_inciso := some (String.mk [l, ')']),
          destino_articulo_padre := some padre }
    | none =>
      let incorpHit : Option String :=
        if accion = some "incorpórase" || accion = some "incorporase" then
          reSearch tryIncorpComoArtM header.data
        else none
      match incorpHit with
      | some n => { accion := accion, destino_articulo := some n }
      | none =>
        let avHit : Option String :=
          if accion = some "sustitúyese" || accion = some "sustituyese" ||
              accion = some "derógase" || accion = some "derogase" ||
              accion = some "modifícase" || accion = some "modificase" ||
              accion = some "suprímese" || accion = some "suprimese" ||
              accion = some "reemplázase" || accion = some "reemplazase" then
            reSearch tryArtAfterVerb header.data
          else none
        match avHit with
        | some n => { accion := accion, destino_articulo := some n }
        | none =>
            match reSearch tryArtSimpleM header.data with
            | some n => { accion := accion, destino_articulo := some n }
            | none => { accion := accion }

/-- Scanner for extract_article_number_from_texto_nuevo:
`ART[ÍI]CULO\s+(\d+(?:\s*(?:bis|...))?)\s*[°º]?[\.-]`. -/
def tryArtNumTextoNuevo (s : Cs) : Option String :=
  match altCI articuloWords s with
  | none => none
  | some (_, r1) =>
    match ws1 r1 with
    | none => none
    | some r2 =>
      firstSome (numCands false r2) (fun gr =>
        if contDegPuntoGuion gr.2 then some (pyStrip (String.mk gr.1)) else none)

/-- parser.py, extract_article_number_from_texto_nuevo. -/
def extractArticleNumberFromTextoNuevo (t : String) : Option String :=
  if t.isEmpty then none else reSearch tryArtNumTextoNuevo t.data

/-- The normalization table of construir_objetivo_accion
(`accion_map.get(accion.lower())`). -/
def accionMap (a : String) : Option String :=
  if a = "sustitúyese" || a = "sustituyese" then some "sustituye"
  else if a = "incorpórase" || a = "incorporase" then some "incorpora"
  else if a = "derógase" || a = "derogase" then some "deroga"
  else if a = "modifícase" || a = "modificase" then some "modifica"
  else if a = "suprímese" || a = "suprimese" then some "suprime"
  else if a = "reemplázase" || a = "reemplazase" then some "reemplaza"
  else if a = "créase" || a = "crease" then some "crea"
  else none

/-- parser.py, construir_objetivo_accion (target projection): normalizes
the action and, when the header produced no truthy article target, fills
`destino_articulo` from the head of the captured replacement text — even
when an inciso or chapter target is already present. -/
def construirObjetivoTargets (meta : TargetMeta) (texto_nuevo : Option String) :
    TargetMeta :=
  let accionNorm :=
    match meta.accion with
    | some a => accionMap (pyLower a)
    | none => none
  let destinoFinal :=
    if !truthy meta.destino_articulo && truthy texto_nuevo then
      extractArticleNumberFromTextoNuevo (texto_nuevo.getD "")
    else meta.destino_articulo
  { accion := accionNorm
    destino_articulo := destinoFinal
    destino_inciso := meta.destino_inciso
    destino_articulo_padre := meta.destino_articulo_padre
    destino_capitulo := meta.destino_capitulo }

/-! ## parser.py : the state machine of parse_dictamen -/

/-- The target projection of one DictamenArticulo. -/
structure DictamenOp where
  dictamen_articulo : String
  titulo : String
  accion : Option String := none
  destino_articulo : Option String := none
  destino_inciso : Option String := none
  destino_articulo_padre : Option String := none
  destino_capitulo : Option String := none
deriving DecidableEq, Repr

/-- The mutable locals of parse_dictamen that influence targets or
control flow.  `current_encabezado`, `current_encabezado_completo` and
`current_texto_intermedio` only feed `texto_completo` and the law
heuristics and are dropped. -/
structure PState where
  titulo : Option String := none
  dictamen_art : Option String := none
  meta : Option TargetMeta := none
  texto_nuevo : List String := []
  capturing_new : Bool := false
  capturing_header : Bool := false
deriving DecidableEq, Repr

def looksLikeDictamenHeader (tail : String) : Bool := (opVerbSearch tail).isSome

def findNextNonempty : List String → Option (String × List String)
  | [] => none
  | l :: r => if (pyStrip l).isEmpty then findNextNonempty r else some (l, r)

/-- The capture loop shared by both branches of is_dictamen_header:
up to 5 further non-blank header lines, stopping at (and including) a
trigger line, or stopping before a new article header or a structural
heading.  Returns (captured parts, remaining lines, trigger found). -/
def headerExtra : Nat → List String → List String × List String × Bool
  | _, [] => ([], [], false)
  | cap, l :: r =>
      if 5 ≤ cap then ([], l :: r, false)
      else
        let ls := pyStrip l
        if ls.isEmpty then headerExtra cap r
        else if (trigSplitAux [] ls.data).isSome then ([ls], r, true)
        else if (headerTry ls.data).isSome then ([], l :: r, false)
        else if structMatch ls then ([], l :: r, false)
        else
          let he := headerExtra (cap + 1) r
          (ls :: he.1, he.2.1, he.2.2)

/-- parser.py, is_dictamen_header, on (current line, following lines);
returns (is dictamen header, combined header, remaining lines, trigger
found inside the header). -/
def isDictamenHeader (line : String) (rest : List String) :
    Bool × String × List String × Bool :=
  match headerTry line.data with
  | none => (false, "", rest, false)
  | some (g1, g2) =>
      let artNum := pyStrip g1
      let tail := pyStrip g2
      if looksLikeDictamenHeader tail then
        let he := headerExtra 0 rest
        let combined :=
          String.intercalate " " (("ARTÍCULO " ++ artNum ++ "- " ++ tail) :: he.1)
        (true, combined, he.2.1, he.2.2)
      else
        match findNextNonempty rest with
        | some (nxt, r2) =>
            if looksLikeDictamenHeader nxt then
              let he := headerExtra 0 r2
              let combined :=
                String.intercalate " "
                  (("ARTÍCULO " ++ artNum ++ "- " ++ pyStrip nxt) :: he.1)
              (true, combined, he.2.1, he.2.2)
            else (false, "", rest, false)
        | none => (false, "", rest, false)

/-- finalizar_articulo_actual: emits the finished operation when an
article is open. -/
def finalizeOp (s : PState) : Option DictamenOp :=
  match s.dictamen_art, s.meta with
  | some art, some meta =>
      let txt : Option String :=
        if s.texto_nuevo.isEmpty then none
        else some (pyStrip (String.intercalate "\n" s.texto_nuevo))
      let ot := construirObjetivoTargets meta txt
      some { dictamen_articulo := art
             titulo := s.titulo.getD "SIN_TITULO"
             accion := ot.accion
             destino_articulo := ot.destino_articulo
             destino_inciso := ot.destino_inciso
             destino_articulo_padre := ot.destino_articulo_padre
             destino_capitulo := ot.destino_capitulo }
  | _, _ => none

def resetKeepTitulo (s : PState) : PState := { titulo := s.titulo }

def metaAccionIncorp (s : PState) : Bool :=
  match s.meta with
  | some m => m.accion = some "incorpórase" || m.accion = some "incorporase"
  | none => false

/-- `re.match(r"^\s*\d+\s*$", t)`. -/
def isDigitsLine (t : String) : Bool :=
  match digits1 (ws0 t.data) with
  | some (_, rr) => (ws0 rr).isEmpty
  | none => false

/-- The trailing capture section of the loop body (text capture according
to the current mode; intermediate text is dropped, the blank-collapse and
the header-capture flag update are kept). -/
def captureStep (s : PState) (line : String) (rest : List String) : PState :=
  if s.dictamen_art.isSome then
    if s.capturing_new then
      let ls := pyStrip line
      if !ls.isEmpty then { s with texto_nuevo := s.texto_nuevo ++ [ls] }
      else if !s.texto_nuevo.isEmpty then
        if s.texto_nuevo.getLast? = some "" then s
        else { s with texto_nuevo := s.texto_nuevo ++ [""] }
      else s
    else if s.capturing_header then
      if !(pyStrip line).isEmpty then
        match rest with
        | next :: _ =>
            if (opVerbSearch (pyStrip next)).isNone &&
                (trigSplitAux [] (pyStrip next).data).isNone then
              { s with capturing_header := false }
            else s
        | [] => s
      else s
    else s
  else s

/-- The fuel-driven main loop of parse_dictamen.  Every iteration of the
source loop advances `i` by at least one, so fuel `lines.length + 1`
never runs out; the fuel-0 branch mirrors the end-of-input closure. -/
def parseLoopF : Nat → PState → List String → List DictamenOp
  | 0, s, _ => (finalizeOp s).toList
  | _ + 1, s, [] => (finalizeOp s).toList
  | f + 1, s, line :: rest =>
      match (tituloMatch line).orElse (fun _ => tituloAnywhere line) with
      | some g =>
          let ops := if s.dictamen_art.isSome then (finalizeOp s).toList else []
          let s1 := if s.dictamen_art.isSome then resetKeepTitulo s else s
          ops ++ parseLoopF f { s1 with titulo := some (pyStrip g) } rest
      | none =>
        if structMatch line && s.dictamen_art.isSome && s.capturing_new then
          let doFin := (tituloMatch line).isNone
          let ops := if doFin then (finalizeOp s).toList else []
          let s2 := if doFin then resetKeepTitulo s else s
          ops ++ parseLoopF f s2 rest
        else
          match headerTry line.data with
          | some (g1, _) =>
              let hd := isDictamenHeader line rest
              if hd.1 then
                let ops := if s.dictamen_art.isSome then (finalizeOp s).toList else []
                let s2 : PState :=
                  { titulo := s.titulo
                    dictamen_art := some (pyStrip g1)
                    meta := some (parseActionAndTarget hd.2.1)
                    texto_nuevo := []
                    capturing_new := hd.2.2.2
                    capturing_header := !hd.2.2.2 }
                ops ++ parseLoopF f s2 hd.2.2.1
              else
                if s.dictamen_art.isSome then
                  let ls := pyStrip line
                  let s2 :=
                    if s.capturing_new && !ls.isEmpty then
                      { s with texto_nuevo := s.texto_nuevo ++ [ls] }
                    else s
                  parseLoopF f s2 rest
                else parseLoopF f s rest
          | none =>
            if s.dictamen_art.isSome && !s.capturing_new then
              match triggerSplit line with
              | some (_, after) =>
                  let afterS := pyStrip after
                  let tn :=
                    if afterS.isEmpty then s.texto_nuevo
                    else s.texto_nuevo ++ [afterS]
                  let s2 := { s with capturing_new := true, capturing_header := false, texto_nuevo := tn }
                  parseLoopF f s2 rest
              | none =>
                  let ls := pyStrip line
                  if metaAccionIncorp s then
                    if (headerTry ls.data).isSome then
                      let tn := if ls.isEmpty then s.texto_nuevo else s.texto_nuevo ++ [ls]
                      let s2 := { s with capturing_new := true, capturing_header := false, texto_nuevo := tn }
                      parseLoopF f s2 rest
                    else
                      let prose : Bool :=
                        !ls.isEmpty &&
                        (match rest with
                         | next :: _ =>
                             let nl := pyStrip next
                             !nl.isEmpty && !structMatch nl &&
                               (tituloMatch nl).isNone &&
                               !isDigitsLine ls && (headerTry ls.data).isNone
                         | [] => false)
                      if prose then
                        let s2 := { s with capturing_new := true, capturing_header := false, texto_nuevo := s.texto_nuevo ++ [ls] }
                        parseLoopF f s2 rest
                      else parseLoopF f (captureStep s line rest) rest
                  else parseLoopF f (captureStep s line rest) rest
            else parseLoopF f (captureStep s line rest) rest

/-- parser.py, parse_dictamen (target projection). -/
def parseDictamen (lines : List String) : List DictamenOp :=
  parseLoopF (lines.length + 1) {} lines

/-! ## Set-membership helper lemmas -/

theorem mem_setAdd {a x : String} {l : List String} :
    a ∈ setAdd x l ↔ a ∈ l ∨ a = x := by
  unfold setAdd
  by_cases h : x ∈ l <;> simp [h, List.mem_append]
  intro h2
  rw [h2]
  exact h

theorem mem_foldl_setAdd {a : String} (l : List String) (init : List String) :
    a ∈ l.foldl (fun acc x => setAdd x acc) init ↔ a ∈ init ∨ a ∈ l := by
  induction l generalizing init with
  | nil => simp
  | cons x xs ih =>
      rw [List.foldl_cons, ih]
      rw [mem_setAdd]
      simp [List.mem_cons]
      tauto

/-! ## Claim C1 -/

/-- The operation used to separate the two resolution orders: its header
names article 5, the head of its replacement text names article 7. -/
def c1_cambio : Cambio :=
  { encabezado := some "Sustitúyese el artículo 5 de la ley.",
    texto_nuevo := some "ARTÍCULO 7- Texto." }

/-- C1, counterexample.  The claim says the resolved target of an
operation without an explicit `destino_articulo` is the number at the
head of `texto_nuevo` ("7" here, and both engines do parse "7" out of
that text); but the reconciliation engine resolves this operation to the
header number "5": replacement text does not outrank the header there. -/
theorem c1_counterexample :
    numeroDesdeTextoCmp c1_cambio = some "7" ∧
    numeroDesdeTextoM c1_cambio = some "7" ∧
    getDestinoCmp c1_cambio = some "5" := by decide

/-- C1, amended.  With no explicit `destino_articulo`: the matcher
(matcher.get_destino_articulo) resolves from the head of the replacement
text first, as claimed; the reconciliation engine
(comparar_ley_dictamen.get_destino_articulo) applies the inverted
priority and lets the header number win over the replacement text. -/
theorem c1_amended_priority :
    ∀ (c : Cambio) (n m : String),
      truthy c.destino_articulo = false →
      numeroDesdeEncabezadoCmp c = some n →
      numeroDesdeTextoM c = some m →
      getDestinoCmp c = some n ∧ getDestinoM c = some m := by
  intro c n m ht he hm
  constructor
  · unfold getDestinoCmp
    rw [ht, he]
    rfl
  · unfold getDestinoM
    rw [ht, hm]
    rfl

theorem c1_amended_priority_witness :
    getDestinoCmp c1_cambio = some "5" ∧ getDestinoM c1_cambio = some "7" :=
  c1_amended_priority c1_cambio "5" "7" (by decide) (by decide) (by decide)

/-! ## Claim C7 -/

/-- Two invocations of the reconciliation on the same pair.  The source
never mutates its inputs (every annotated node is a `copy()` and every
rebuilt list is fresh), which is why a pure embedding is faithful; under
it both runs are literally the same value. -/
def compararTwice (ley : LeyData) (d : List Cambio) (ls ds : String) :
    Option Comparacion × Option Comparacion :=
  (compararLeyDictamenObjects ley d ls ds, compararLeyDictamenObjects ley d ls ds)

/-- C7: running comparar_ley_dictamen_objects twice on the same
(law tree, operations) pair yields identical comparison trees; the
engine is a deterministic pure function of its inputs. -/
theorem c7_reconciliation_idempotent (ley : LeyData) (d : List Cambio) (ls ds : String) :
    (compararTwice ley d ls ds).1 = (compararTwice ley d ls ds).2 := rfl

/-! ## Claim C8 -/

/-- An operation whose `accion` field is an explicit null — a shape the
repository itself produces (`Operation.accion : Optional[str]`, and the
parser with `--sin-objetivo-accion` emits all-null objetivo fields). -/
def c8_cambio : Cambio :=
  { accion := .null,
    encabezado := some "Derógase el artículo 5 de la Ley N° 20.744" }

def c8_ley : LeyData :=
  { titulos := [{ numero := some "I",
                  articulos := [{ numero := some "5", texto := some "Texto cinco." }] }] }

/-- C8: the propagation policy says parsing and reconciliation never
raise.  But the first statement of the process_dictamen_changes loop is
`cambio.get('accion', '').lower()`, and on an operation whose `accion`
is null this evaluates `None.lower()` and raises AttributeError — the
`none` outcome of the embedding — so the reconciliation dies instead of
degrading. -/
theorem c8_null_accion_raises :
    processDictamenChanges [c8_cambio] c8_ley = none ∧
    compararLeyDictamenObjects c8_ley [c8_cambio] "unknown" "unknown" = none := by
  decide

/-! ## Claim C10 -/

def invDM (st : MatchResult) : Prop :=
  ∀ a ∈ st.derogated_articles, a ∈ st.modified_articles

theorem stepMatchData_inv (ley : LeyData) (st : MatchResult) (c : Cambio) :
    invDM st → invDM (stepMatchData ley st c) := by
  intro h a
  unfold stepMatchData
  dsimp only
  split
  · split
    · split
      · simp only [mem_foldl_setAdd]
        rintro ((h1 | h2) | h3)
        · exact Or.inl (Or.inl (h a h1))
        · exact Or.inl (Or.inr h2)
        · exact Or.inr h3
      · simp only [mem_foldl_setAdd]
        rintro (h1 | h2)
        · exact Or.inl (h a h1)
        · exact Or.inr h2
    · simp only [mem_foldl_setAdd]
      rintro (h1 | h2)
      · exact Or.inl (h a h1)
      · exact Or.inr h2
  · split
    · exact h a
    · split
      · exact h a
      · split
        · simp only [mem_setAdd]
          rintro (h1 | h2)
          · exact Or.inl (h a h1)
          · exact Or.inr h2
        · intro ha
          exact mem_setAdd.mpr (Or.inl (h a ha))

theorem foldl_stepMatchData_inv (ley : LeyData) (d : List Cambio) :
    ∀ st : MatchResult, invDM st → invDM (d.foldl (stepMatchData ley) st) := by
  induction d with
  | nil => intro st h; exact h
  | cons c cs ih =>
      intro st h
      exact ih _ (stepMatchData_inv ley st c h)

/-- C10: in every MatchResult produced by matcher.process_dictamen_data,
the derogated article set is contained in the modified article set —
every identifier inserted into `derogated_articles` (individually, by a
chapter derogation, or by the Chapter VIII synthetic fallback) is also
inserted into `modified_articles`. -/
theorem c10_derogated_subset_modified :
    ∀ (d : List Cambio) (ley : LeyData) (a : String),
      a ∈ (processDictamenData d ley).derogated_articles →
      a ∈ (processDictamenData d ley).modified_articles := by
  intro d ley a
  unfold processDictamenData
  exact foldl_stepMatchData_inv ley d {} (by intro x hx; cases hx) a

def c10_d : List Cambio := [{ accion := .str "derógase", destino_articulo := some "9" }]

theorem c10_derogated_subset_modified_witness :
    "9" ∈ (processDictamenData c10_d ({} : LeyData)).modified_articles :=
  c10_derogated_subset_modified c10_d {} "9" (by decide)

/-! ## Claim C3 -/

theorem alLookup_alInsert_self {α : Type} (k : String) (v : α) (l : List (String × α)) :
    alLookup k (alInsert k v l) = some v := by
  induction l with
  | nil => simp [alInsert, alLookup]
  | cons p r ih =>
      obtain ⟨k2, v2⟩ := p
      by_cases h : k2 = k
      · simp [alInsert, h, alLookup]
      · simp [alInsert, h, alLookup, ih]

theorem alLookup_alInsert_ne {α : Type} {k k2 : String} (v : α)
    (l : List (String × α)) (h : k ≠ k2) :
    alLookup k2 (alInsert k v l) = alLookup k2 l := by
  induction l with
  | nil =>
      simp only [alInsert, alLookup]
      rw [if_neg h]
  | cons p r ih =>
      obtain ⟨k3, v3⟩ := p
      by_cases h3 : k3 = k
      · subst h3
        unfold alInsert
        rw [if_pos rfl]
        simp only [alLookup]
        rw [if_neg h, if_neg h]
      · simp only [alInsert, if_neg h3, alLookup]
        rw [ih]

/-- The entry that one target of an operation writes into
`cambios_por_articulo` (mirrors the write cases of `procTarget`, with
`none` for the cases that route to `incorporaciones` or write nothing). -/
def entryFor (ley : LeyData) (accion : String) (o : Cambio) (n : String) : Option Entrada :=
  let existe := (findArticleInLey ley n none none).isSome
  if accion = "incorpórase" ∨ accion = "incorporase" then
    if existe then some ⟨"sustitucion", o⟩ else none
  else if accion = "derógase" ∨ accion = "derogase" then some ⟨"derogacion", o⟩
  else if accion = "sustitúyese" ∨ accion = "sustituyese" ∨
      accion = "modifícase" ∨ accion = "modificase" then
    if existe then some ⟨"sustitucion", o⟩ else none
  else none

/-- Whether (and with which entry) operation `o` writes index key `n`:
its accion must be readable, it must not be a chapter operation, and `n`
must be among its normalized expanded targets with a writing action. -/
def writesIndex (ley : LeyData) (o : Cambio) (n : String) : Option Entrada :=
  match o.accion.lowerGetEmpty with
  | none => none
  | some accion =>
      if truthy o.destino_capitulo then none
      else
        match getDestinoCmp o with
        | some raw =>
            if raw.isEmpty then none
            else if n ∈ (expandTargets raw).map (fun t => normalizeArt (some t)) then
              entryFor ley accion o n
            else none
        | none => none

theorem procTarget_hit (ley : LeyData) (accion : String) (o : Cambio)
    (st : CambiosSt) (t n : String) (e : Entrada)
    (hn : normalizeArt (some t) = n) (he : entryFor ley accion o n = some e) :
    alLookup n (procTarget ley accion o st t).cambios_por_articulo = some e := by
  unfold procTarget
  unfold entryFor at he
  dsimp only at he ⊢
  rw [hn]
  by_cases h1 : accion = "incorpórase" ∨ accion = "incorporase"
  · rw [if_pos h1] at he ⊢
    by_cases h2 : (findArticleInLey ley n none none).isSome = true
    · rw [if_pos h2] at he ⊢
      cases he
      exact alLookup_alInsert_self n _ _
    · rw [if_neg h2] at he
      cases he
  · rw [if_neg h1] at he ⊢
    by_cases h3 : accion = "derógase" ∨ accion = "derogase"
    · rw [if_pos h3] at he ⊢
      cases he
      exact alLookup_alInsert_self n _ _
    · rw [if_neg h3] at he ⊢
      by_cases h4 : accion = "sustitúyese" ∨ accion = "sustituyese" ∨
          accion = "modifícase" ∨ accion = "modificase"
      · rw [if_pos h4] at he ⊢
        by_cases h5 : (findArticleInLey ley n none none).isSome = true
        · rw [if_pos h5] at he ⊢
          cases he
          exact alLookup_alInsert_self n _ _
        · rw [if_neg h5] at he
          cases he
      · rw [if_neg h4] at he
        cases he

theorem procTarget_miss (ley : LeyData) (accion : String) (o : Cambio)
    (st : CambiosSt) (t n : String) (hn : normalizeArt (some t) ≠ n) :
    alLookup n (procTarget ley accion o st t).cambios_por_articulo =
      alLookup n st.cambios_por_articulo := by
  unfold procTarget
  dsimp only
  by_cases h1 : accion = "incorpórase" ∨ accion = "incorporase"
  · rw [if_pos h1]
    by_cases h2 : (findArticleInLey ley (normalizeArt (some t)) none none).isSome = true
    · rw [if_pos h2]
      exact alLookup_alInsert_ne _ _ hn
    · rw [if_neg h2]
  · rw [if_neg h1]
    by_cases h3 : accion = "derógase" ∨ accion = "derogase"
    · rw [if_pos h3]
      exact alLookup_alInsert_ne _ _ hn
    · rw [if_neg h3]
      by_cases h4 : accion = "sustitúyese" ∨ accion = "sustituyese" ∨
          accion = "modifícase" ∨ accion = "modificase"
      · rw [if_pos h4]
        by_cases h5 : (findArticleInLey ley (normalizeArt (some t)) none none).isSome = true
        · rw [if_pos h5]
          exact alLookup_alInsert_ne _ _ hn
        · rw [if_neg h5]
      · rw [if_neg h4]

theorem foldl_procTarget_miss (ley : LeyData) (accion : String) (o : Cambio)
    (ts : List String) (n : String)
    (hall : ∀ t ∈ ts, normalizeArt (some t) ≠ n) :
    ∀ st : CambiosSt,
      alLookup n (ts.foldl (procTarget ley accion o) st).cambios_por_articulo =
        alLookup n st.cambios_por_articulo := by
  induction ts with
  | nil => intro st; rfl
  | cons t ts ih =>
      intro st
      rw [List.foldl_cons]
      rw [ih (fun x hx => hall x (List.mem_cons_of_mem t hx))]
      exact procTarget_miss ley accion o st t n (hall t (List.mem_cons_self t ts))

theorem foldl_procTarget_hit (ley : LeyData) (accion : String) (o : Cambio)
    (ts : List String) (n : String) (e : Entrada)
    (hmem : n ∈ ts.map (fun t => normalizeArt (some t)))
    (he : entryFor ley accion o n = some e) :
    ∀ st : CambiosSt,
      alLookup n (ts.foldl (procTarget ley accion o) st).cambios_por_articulo = some e := by
  induction ts with
  | nil => cases hmem
  | cons t ts ih =>
      intro st
      rw [List.foldl_cons]
      by_cases h2 : n ∈ ts.map (fun x => normalizeArt (some x))
      · exact ih h2 _
      · have ht : normalizeArt (some t) = n := by
          rcases List.mem_cons.mp hmem with h | h
          · exact h.symm
          · exact absurd h h2
        have hall : ∀ x ∈ ts, normalizeArt (some x) ≠ n := by
          intro x hx hc
          exact h2 (List.mem_map.mpr ⟨x, hx, hc⟩)
        rw [foldl_procTarget_miss ley accion o ts n hall]
        exact procTarget_hit ley accion o st t n e ht he

theorem processAux_append (ley : LeyData) (l1 l2 : List Cambio) :
    ∀ st : CambiosSt,
      processAux ley st (l1 ++ l2) =
        (processAux ley st l1).bind (fun s2 => processAux ley s2 l2) := by
  induction l1 with
  | nil => intro st; rfl
  | cons c cs ih =>
      intro st
      rw [List.cons_append]
      cases h : stepCambio ley st c
      · simp only [processAux, h]
        rfl
      · simp only [processAux, h]
        exact ih _

theorem stepCambio_writes (ley : LeyData) (s1 : CambiosSt) (o : Cambio)
    (st : CambiosSt) (n : String) (e : Entrada)
    (hw : writesIndex ley o n = some e)
    (hstep : stepCambio ley s1 o = some st) :
    alLookup n st.cambios_por_articulo = some e := by
  unfold writesIndex at hw
  unfold stepCambio at hstep
  cases hacc : o.accion.lowerGetEmpty with
  | none => rw [hacc] at hw; cases hw
  | some accion =>
      rw [hacc] at hw hstep
      dsimp only at hw hstep
      by_cases hcap : truthy o.destino_capitulo = true
      · rw [if_pos hcap] at hw
        cases hw
      · rw [if_neg hcap] at hw hstep
        cases hdest : getDestinoCmp o with
        | none => rw [hdest] at hw; cases hw
        | some raw =>
            rw [hdest] at hw hstep
            dsimp only at hw hstep
            by_cases hraw : raw.isEmpty = true
            · rw [if_pos hraw] at hw
              cases hw
            · rw [if_neg hraw] at hw hstep
              by_cases hmem : n ∈ (expandTargets raw).map (fun t => normalizeArt (some t))
              · rw [if_pos hmem] at hw
                cases hstep
                exact foldl_procTarget_hit ley accion o (expandTargets raw) n e hmem hw s1
              · rw [if_neg hmem] at hw
                cases hw

theorem entryFor_tipo (ley : LeyData) (accion : String) (o : Cambio) (n : String)
    (e : Entrada) (he : entryFor ley accion o n = some e) :
    e.tipo = "sustitucion" ∨ e.tipo = "derogacion" := by
  unfold entryFor at he
  dsimp only at he
  by_cases h1 : accion = "incorpórase" ∨ accion = "incorporase"
  · rw [if_pos h1] at he
    by_cases h2 : (findArticleInLey ley n none none).isSome = true
    · rw [if_pos h2] at he
      cases he
      exact Or.inl rfl
    · rw [if_neg h2] at he
      cases he
  · rw [if_neg h1] at he
    by_cases h3 : accion = "derógase" ∨ accion = "derogase"
    · rw [if_pos h3] at he
      cases he
      exact Or.inr rfl
    · rw [if_neg h3] at he
      by_cases h4 : accion = "sustitúyese" ∨ accion = "sustituyese" ∨
          accion = "modifícase" ∨ accion = "modificase"
      · rw [if_pos h4] at he
        by_cases h5 : (findArticleInLey ley n none none).isSome = true
        · rw [if_pos h5] at he
          cases he
          exact Or.inl rfl
        · rw [if_neg h5] at he
          cases he
      · rw [if_neg h4] at he
        cases he

theorem writesIndex_entry (ley : LeyData) (o : Cambio) (n : String) (e : Entrada)
    (hw : writesIndex ley o n = some e) :
    ∃ accion, o.accion.lowerGetEmpty = some accion ∧ entryFor ley accion o n = some e := by
  unfold writesIndex at hw
  cases hacc : o.accion.lowerGetEmpty with
  | none => rw [hacc] at hw; cases hw
  | some accion =>
      rw [hacc] at hw
      dsimp only at hw
      refine ⟨accion, rfl, ?_⟩
      by_cases hcap : truthy o.destino_capitulo = true
      · rw [if_pos hcap] at hw; cases hw
      · rw [if_neg hcap] at hw
        cases hdest : getDestinoCmp o with
        | none => rw [hdest] at hw; cases hw
        | some raw =>
            rw [hdest] at hw
            dsimp only at hw
            by_cases hraw : raw.isEmpty = true
            · rw [if_pos hraw] at hw; cases hw
            · rw [if_neg hraw] at hw
              by_cases hmem : n ∈ (expandTargets raw).map (fun t => normalizeArt (some t))
              · rw [if_pos hmem] at hw
                exact hw
              · rw [if_neg hmem] at hw; cases hw

/-- C3: the per-article change index is built by one forward pass with
last-writer-wins overwriting — the last operation of the list that
writes index key `n` owns the final entry, and through
apply_changes_to_article that entry fixes the article's disposition
(`derogado` for a derogation entry, `sustituido` for a substitution
entry), as in the spec's two-operations-on-article-40 example. -/
theorem c3_last_writer_wins :
    ∀ (ley : LeyData) (pre : List Cambio) (o : Cambio) (n : String) (e : Entrada)
      (st : CambiosSt) (art : Articulo),
      writesIndex ley o n = some e →
      processDictamenChanges (pre ++ [o]) ley = some st →
      alLookup n st.cambios_por_articulo = some e ∧
      (normalizeArt art.numero = n →
        (applyChangesToArticle art st).estado =
          some (if e.tipo = "sustitucion" then "sustituido" else "derogado")) := by
  intro ley pre o n e st art hw hp
  unfold processDictamenChanges at hp
  rw [processAux_append] at hp
  cases hpre : processAux ley {} pre with
  | none => rw [hpre] at hp; cases hp
  | some s1 =>
      rw [hpre] at hp
      have hstep : stepCambio ley s1 o = some st := by
        simp only [Option.bind] at hp
        unfold processAux at hp
        cases hs : stepCambio ley s1 o with
        | none => rw [hs] at hp; cases hp
        | some st2 =>
            rw [hs] at hp
            unfold processAux at hp
            cases hp
            rfl
      have hlook := stepCambio_writes ley s1 o st n e hw hstep
      refine ⟨hlook, ?_⟩
      intro hart
      obtain ⟨accion, -, he⟩ := writesIndex_entry ley o n e hw
      have htipo := entryFor_tipo ley accion o n e he
      unfold applyChangesToArticle
      rw [hart]
      dsimp only
      rw [hlook]
      dsimp only
      rcases htipo with h | h
      · rw [if_pos h, h]
        simp
      · rw [h]
        rw [if_neg (by decide), if_pos rfl, if_neg (by decide)]

def c3_ley : LeyData :=
  { titulos := [{ numero := some "I",
                  articulos := [{ numero := some "40", texto := some "Texto cuarenta." }] }] }

def c3_sust : Cambio :=
  { accion := .str "Sustitúyese", destino_articulo := some "40",
    texto_nuevo := some "ARTÍCULO 40- Nuevo texto." }

def c3_derog : Cambio := { accion := .str "Derógase", destino_articulo := some "40" }

def c3_st : CambiosSt := (processDictamenChanges ([c3_sust] ++ [c3_derog]) c3_ley).getD {}

def c3_art40 : Articulo := { numero := some "40", texto := some "Texto cuarenta." }

theorem c3_last_writer_wins_witness :
    alLookup "40" c3_st.cambios_por_articulo = some ⟨"derogacion", c3_derog⟩ ∧
    (applyChangesToArticle c3_art40 c3_st).estado = some "derogado" := by
  have h := c3_last_writer_wins c3_ley [c3_sust] c3_derog "40" ⟨"derogacion", c3_derog⟩
    c3_st c3_art40 (by decide) (by decide)
  exact ⟨h.1, (h.2 (by decide)).trans (by decide)⟩

/-! ## Claim C4 -/

/-- A law tree whose Chapter VIII holds a single unnumbered article
("S/N"): it has zero numbered articles, yet find_articles_in_chapter
still returns one positional identifier. -/
def c4_leySN : LeyData :=
  { titulos := [{ numero := some "III",
                  capitulos := [{ numero := some "VIII",
                                  articulos := [{ numero := some "S/N",
                                                  texto := some "Texto sin número." }] }] }] }

def c4_op : Cambio := { accion := .str "derógase", destino_capitulo := some "VIII" }

/-- C4, counterexample.  Against a law tree whose Chapter VIII has zero
numbered articles (one S/N article), the derogation yields exactly one
positional identifier and one synthesized record — not the 7 the claim
requires for every zero-numbered-articles Chapter VIII. -/
theorem c4_counterexample :
    alLookup "VIII" (processDictamenData [c4_op] c4_leySN).derogated_chapters =
      some ["CAP_VIII_ART_1"] ∧
    (getDerogatedChapterArticles
        (processDictamenData [c4_op] c4_leySN).derogated_chapters c4_leySN).length = 1 := by
  decide

/-- The seven synthesized Chapter VIII records, in identifier order. -/
def sinteticosVIII : List DerogArtM :=
  (List.range 7).map (fun i =>
    { numero := "CAP_VIII_ART_" ++ natToStr (i + 1)
      titulo := ""
      texto := textosCapVIII.getD i ""
      isDerogated := true
      tituloNumero := "III"
      tituloNombre := "De los derechos y obligaciones de las partes"
      capituloNumero := "VIII"
      capituloNombre := "DE LA FORMACIÓN PROFESIONAL" })

/-- C4, amended: the hypothesis must be that Chapter VIII yields no
article identifiers at all (absent chapter or empty article list), not
merely no numbered ones.  Then the engine synthesizes exactly the 7
placeholder derogated articles CAP_VIII_ART_1..7, with texts from the
fixed fallback table, placed under Title III; and a derogation of any
other chapter that yields no identifiers synthesizes nothing. -/
theorem c4_amended_chapter_viii :
    ∀ (ley : LeyData) (c : Cambio),
      c.destino_capitulo = some "VIII" →
      findArticlesInChapterM ley "VIII" = [] →
      (alLookup "VIII" (processDictamenData [c] ley).derogated_chapters =
          some syntheticVIII ∧
        (getDerogatedChapterArticles (processDictamenData [c] ley).derogated_chapters
            ley).Perm sinteticosVIII) ∧
      (∀ (cap : String) (c2 : Cambio),
        c2.destino_capitulo = some cap → cap ≠ "" → pyUpper cap ≠ "VIII" →
        findArticlesInChapterM ley cap = [] →
        alLookup cap (processDictamenData [c2] ley).derogated_chapters = some [] ∧
        getDerogatedChapterArticles (processDictamenData [c2] ley).derogated_chapters ley
          = []) := by
  intro ley c hc hf
  constructor
  · have key : (processDictamenData [c] ley).derogated_chapters =
        [("VIII", listDedup syntheticVIII)] := by
      show (stepMatchData ley {} c).derogated_chapters = _
      unfold stepMatchData
      rw [if_pos (by rw [hc]; decide)]
      dsimp only
      rw [hc]
      rw [show ((some "VIII").getD "") = "VIII" from rfl]
      rw [hf]
      decide
    constructor
    · rw [key]
      decide
    · rw [key]
      have : getDerogatedChapterArticles [("VIII", listDedup syntheticVIII)] ley =
          sinteticosVIII := by
        unfold getDerogatedChapterArticles
        decide
      rw [this]
  · intro cap c2 hc2 hne hup hf2
    have htr : truthy (some cap) = true := by
      simp only [truthy]
      cases hemp : cap.isEmpty
      · rfl
      · exact absurd ((String.isEmpty_iff cap).mp hemp) hne
    have key : (processDictamenData [c2] ley).derogated_chapters = [(cap, [])] := by
      show (stepMatchData ley {} c2).derogated_chapters = _
      unfold stepMatchData
      rw [if_pos (by rw [hc2]; exact htr)]
      dsimp only
      rw [hc2]
      rw [show ∀ x : String, ((some x).getD "") = x from fun x => rfl]
      rw [hf2]
      rw [if_pos (show ([] : List String).length = 0 from rfl), if_neg hup]
      rfl
    constructor
    · rw [key]
      simp [alLookup]
    · rw [key]
      rfl

/-- A law tree whose Chapter VIII (and Chapter IX) have no articles. -/
def c4_ley0 : LeyData :=
  { titulos := [{ numero := some "III",
                  capitulos := [{ numero := some "VIII", articulos := [] },
                                { numero := some "IX", articulos := [] }] }] }

def c4_op9 : Cambio := { accion := .str "derógase", destino_capitulo := some "IX" }

theorem c4_amended_chapter_viii_witness :
    (alLookup "VIII" (processDictamenData [c4_op] c4_ley0).derogated_chapters =
        some syntheticVIII ∧
      (getDerogatedChapterArticles (processDictamenData [c4_op] c4_ley0).derogated_chapters
          c4_ley0).Perm sinteticosVIII) ∧
    (alLookup "IX" (processDictamenData [c4_op9] c4_ley0).derogated_chapters = some [] ∧
      getDerogatedChapterArticles (processDictamenData [c4_op9] c4_ley0).derogated_chapters
        c4_ley0 = []) := by
  have h := c4_amended_chapter_viii c4_ley0 c4_op rfl (by decide)
  exact ⟨h.1, h.2 "IX" c4_op9 rfl (by decide) (by decide) (by decide)⟩

/-! ## Membership lemmas for the insertion-and-sort phase -/

def memGrupos (g : ArtInc) (grupos : List (String × List ArtInc)) : Prop :=
  ∃ p, p ∈ grupos ∧ g ∈ p.2

theorem alLookup_mem {α : Type} {k : String} {v : α} :
    ∀ {l : List (String × α)}, alLookup k l = some v → (k, v) ∈ l := by
  intro l
  induction l with
  | nil => intro h; cases h
  | cons p r ih =>
      obtain ⟨k2, v2⟩ := p
      intro h
      unfold alLookup at h
      by_cases hk : k2 = k
      · rw [if_pos hk] at h
        cases h
        subst hk
        exact List.mem_cons_self _ _
      · rw [if_neg hk] at h
        exact List.mem_cons_of_mem _ (ih h)

theorem mem_alAppendGroup {g : ArtInc} {k : String} {v : ArtInc} :
    ∀ {l : List (String × List ArtInc)},
      memGrupos g (alAppendGroup k v l) → memGrupos g l ∨ g = v := by
  intro l
  induction l with
  | nil =>
      rintro ⟨p, hp, hg⟩
      simp only [alAppendGroup, List.mem_singleton] at hp
      subst hp
      rcases List.mem_singleton.mp hg with h
      exact Or.inr h
  | cons q r ih =>
      obtain ⟨k2, l2⟩ := q
      rintro ⟨p, hp, hg⟩
      unfold alAppendGroup at hp
      by_cases hk : k2 = k
      · rw [if_pos hk] at hp
        rcases List.mem_cons.mp hp with h | h
        · subst h
          rcases List.mem_append.mp hg with h2 | h2
          · exact Or.inl ⟨(k2, l2), List.mem_cons_self _ _, h2⟩
          · exact Or.inr (List.mem_singleton.mp h2)
        · exact Or.inl ⟨p, List.mem_cons_of_mem _ h, hg⟩
      · rw [if_neg hk] at hp
        rcases List.mem_cons.mp hp with h | h
        · subst h
          exact Or.inl ⟨(k2, l2), List.mem_cons_self _ _, hg⟩
        · rcases ih ⟨p, h, hg⟩ with h2 | h2
          · obtain ⟨p2, hp2, hg2⟩ := h2
            exact Or.inl ⟨p2, List.mem_cons_of_mem _ hp2, hg2⟩
          · exact Or.inr h2

theorem gruposInc_sub {g : ArtInc} :
    ∀ (incs : List ArtInc) (acc : List (String × List ArtInc)),
      memGrupos g
        (incs.foldl
          (fun acc a =>
            match a.titulo_destino_numero with
            | some tn => if tn.isEmpty then acc else alAppendGroup tn a acc
            | none => acc)
          acc) →
      memGrupos g acc ∨ g ∈ incs := by
  intro incs
  induction incs with
  | nil => intro acc h; exact Or.inl h
  | cons a incs ih =>
      intro acc h
      rw [List.foldl_cons] at h
      rcases ih _ h with h2 | h2
      · revert h2
        cases a.titulo_destino_numero with
        | none => exact fun h2 => Or.inl h2
        | some tn =>
            dsimp only
            by_cases he : tn.isEmpty = true
            · rw [if_pos he]
              exact fun h2 => Or.inl h2
            · rw [if_neg he]
              intro h2
              rcases mem_alAppendGroup h2 with h3 | h3
              · exact Or.inl h3
              · exact Or.inr (h3 ▸ List.mem_cons_self _ _)
      · exact Or.inr (List.mem_cons_of_mem _ h2)

theorem mem_gruposInc {g : ArtInc} {incs : List ArtInc} :
    memGrupos g (gruposInc incs) → g ∈ incs := by
  intro h
  rcases gruposInc_sub incs [] h with h2 | h2
  · obtain ⟨p, hp, -⟩ := h2
    cases hp
  · exact h2

theorem processIncorporated_estado {g : ArtInc} {incs : List (Cambio × String)}
    {ley : LeyData} (h : g ∈ processIncorporatedArticles incs ley) :
    g.estado = "incorporado" := by
  unfold processIncorporatedArticles at h
  obtain ⟨p, -, hp⟩ := List.mem_filterMap.mp h
  revert hp
  dsimp only
  by_cases he : (findArticleInLey ley p.2 none none).isSome = true
  · rw [if_pos he]
    intro h2
    cases h2
  · rw [if_neg he]
    intro h2
    cases h2
    rfl

theorem mem_sortArticulos {a : ArticuloCmp} {l : List ArticuloCmp} :
    a ∈ sortArticulos l ↔ a ∈ l :=
  (List.perm_insertionSort artLe l).mem_iff

theorem capInsertFirst_spec (grupo : List ArtInc) (cap : CapituloCmp) :
    (capInsertFirst grupo cap).1.numero = cap.numero ∧
    (capInsertFirst grupo cap).1.estado = cap.estado ∧
    ∀ a ∈ (capInsertFirst grupo cap).1.articulos,
      a ∈ cap.articulos ∨ ∃ g ∈ grupo, a = artIncClean g := by
  induction grupo with
  | nil => exact ⟨rfl, rfl, fun a ha => Or.inl ha⟩
  | cons g gs ih =>
      unfold capInsertFirst
      by_cases hm : chapterArtMatch (normalizeArt (some g.numero)) cap.articulos = true
      · rw [if_pos hm]
        refine ⟨rfl, rfl, ?_⟩
        intro a ha
        rcases List.mem_append.mp ha with h | h
        · exact Or.inl h
        · exact Or.inr ⟨g, List.mem_cons_self _ _, List.mem_singleton.mp h⟩
      · rw [if_neg hm]
        refine ⟨ih.1, ih.2.1, ?_⟩
        intro a ha
        rcases ih.2.2 a ha with h | ⟨g2, hg2, he⟩
        · exact Or.inl h
        · exact Or.inr ⟨g2, List.mem_cons_of_mem _ hg2, he⟩

theorem capInsertStep_spec (grupo : List ArtInc) (flag : Bool) (cap : CapituloCmp) :
    (capInsertStep grupo flag cap).1.numero = cap.numero ∧
    (capInsertStep grupo flag cap).1.estado = cap.estado ∧
    ∀ a ∈ (capInsertStep grupo flag cap).1.articulos,
      a ∈ cap.articulos ∨ ∃ g ∈ grupo, a = artIncClean g := by
  unfold capInsertStep
  by_cases he : cap.articulos.isEmpty = true
  · rw [if_pos he]
    exact ⟨rfl, rfl, fun a ha => Or.inl ha⟩
  · rw [if_neg he]
    cases flag with
    | false =>
        rw [if_neg (by decide)]
        exact capInsertFirst_spec grupo cap
    | true =>
        rw [if_pos rfl]
        cases grupo with
        | nil => exact ⟨rfl, rfl, fun a ha => Or.inl ha⟩
        | cons g0 gs =>
            dsimp only
            by_cases hm : chapterArtMatch (normalizeArt (some g0.numero)) cap.articulos = true
            · rw [if_pos hm]
              refine ⟨rfl, rfl, ?_⟩
              intro a ha
              rcases List.mem_append.mp ha with h | h
              · exact Or.inl h
              · exact Or.inr ⟨g0, List.mem_cons_self _ _, List.mem_singleton.mp h⟩
            · rw [if_neg hm]
              exact ⟨rfl, rfl, fun a ha => Or.inl ha⟩

theorem capsInsert_spec (grupo : List ArtInc) :
    ∀ (caps : List CapituloCmp) (flag : Bool),
      ∀ c2 ∈ (capsInsert grupo caps flag).1,
        ∃ c ∈ caps, c2.numero = c.numero ∧ c2.estado = c.estado ∧
          ∀ a ∈ c2.articulos, a ∈ c.articulos ∨ ∃ g ∈ grupo, a = artIncClean g := by
  intro caps
  induction caps with
  | nil => intro flag c2 h; cases h
  | cons cap rest ih =>
      intro flag c2 hc2
      unfold capsInsert at hc2
      dsimp only at hc2
      rcases List.mem_cons.mp hc2 with h | h
      · subst h
        obtain ⟨h1, h2, h3⟩ := capInsertStep_spec grupo flag cap
        exact ⟨cap, List.mem_cons_self _ _, h1, h2, h3⟩
      · obtain ⟨c, hc, hs⟩ := ih _ c2 h
        exact ⟨c, List.mem_cons_of_mem _ hc, hs⟩

theorem directAppend_spec (grupo : List ArtInc) :
    ∀ t : TituloCmp,
      (directAppend grupo t).numero = t.numero ∧
      (directAppend grupo t).estado = t.estado ∧
      (directAppend grupo t).capitulos = t.capitulos ∧
      ∀ a ∈ (directAppend grupo t).articulos,
        a ∈ t.articulos ∨ ∃ g ∈ grupo, a = artIncClean g := by
  induction grupo with
  | nil => exact fun t => ⟨rfl, rfl, rfl, fun a ha => Or.inl ha⟩
  | cons g gs ih =>
      intro t
      have hfold : directAppend (g :: gs) t =
          directAppend gs
            (if numeroInCaps (normalizeArt (some g.numero)) t.capitulos then t
             else { t with articulos := t.articulos ++ [artIncClean g] }) := by
        unfold directAppend
        rw [List.foldl_cons]
      rw [hfold]
      by_cases hm : numeroInCaps (normalizeArt (some g.numero)) t.capitulos = true
      · rw [if_pos hm]
        obtain ⟨h1, h2, h3, h4⟩ := ih t
        refine ⟨h1, h2, h3, ?_⟩
        intro a ha
        rcases h4 a ha with h | ⟨g2, hg2, he⟩
        · exact Or.inl h
        · exact Or.inr ⟨g2, List.mem_cons_of_mem _ hg2, he⟩
      · rw [if_neg hm]
        obtain ⟨h1, h2, h3, h4⟩ := ih { t with articulos := t.articulos ++ [artIncClean g] }
        refine ⟨h1, h2, h3, ?_⟩
        intro a ha
        rcases h4 a ha with h | ⟨g2, hg2, he⟩
        · rcases List.mem_append.mp h with h5 | h5
          · exact Or.inl h5
          · exact Or.inr ⟨g, List.mem_cons_self _ _, List.mem_singleton.mp h5⟩
        · exact Or.inr ⟨g2, List.mem_cons_of_mem _ hg2, he⟩

theorem tituloInsert_spec (grupos : List (String × List ArtInc)) (t : TituloCmp) :
    (tituloInsert grupos t).numero = t.numero ∧
    (tituloInsert grupos t).estado = t.estado ∧
    (∀ a ∈ (tituloInsert grupos t).articulos,
        a ∈ t.articulos ∨ ∃ g, memGrupos g grupos ∧ a = artIncClean g) ∧
    (∀ c2 ∈ (tituloInsert grupos t).capitulos,
        ∃ c ∈ t.capitulos, c2.estado = c.estado ∧
          ∀ a ∈ c2.articulos,
            a ∈ c.articulos ∨ ∃ g, memGrupos g grupos ∧ a = artIncClean g) := by
  unfold tituloInsert
  cases hl : alLookup (pyStr t.numero) grupos with
  | none =>
      exact ⟨rfl, rfl, fun a ha => Or.inl ha,
        fun c2 h => ⟨c2, h, rfl, fun a ha => Or.inl ha⟩⟩
  | some grupo =>
      have hgm : ∀ g ∈ grupo, memGrupos g grupos :=
        fun g hg => ⟨_, alLookup_mem hl, hg⟩
      dsimp only
      set cs := capsInsert grupo t.capitulos false with hcs
      set t2 : TituloCmp := { t with capitulos := cs.1 } with ht2
      set t3 := if cs.2 = true then t2 else directAppend grupo t2 with ht3
      have h3n : t3.numero = t.numero ∧ t3.estado = t.estado ∧
          t3.capitulos = cs.1 ∧
          ∀ a ∈ t3.articulos, a ∈ t.articulos ∨ ∃ g ∈ grupo, a = artIncClean g := by
        rw [ht3]
        by_cases hf : cs.2 = true
        · rw [if_pos hf]
          exact ⟨rfl, rfl, rfl, fun a ha => Or.inl ha⟩
        · rw [if_neg hf]
          obtain ⟨h1, h2, h3, h4⟩ := directAppend_spec grupo t2
          exact ⟨h1, h2, h3, h4⟩
      set t4 := if t3.articulos.isEmpty = true then t3
        else { t3 with articulos := sortArticulos t3.articulos } with ht4
      have h4n : t4.numero = t3.numero ∧ t4.estado = t3.estado ∧
          t4.capitulos = t3.capitulos ∧
          ∀ a ∈ t4.articulos, a ∈ t3.articulos := by
        rw [ht4]
        by_cases hf : t3.articulos.isEmpty = true
        · rw [if_pos hf]
          exact ⟨rfl, rfl, rfl, fun a ha => ha⟩
        · rw [if_neg hf]
          exact ⟨rfl, rfl, rfl, fun a ha => mem_sortArticulos.mp ha⟩
      refine ⟨h4n.1.trans h3n.1, (h4n.2.1).trans h3n.2.1, ?_, ?_⟩
      · intro a ha
        rcases h3n.2.2.2 a (h4n.2.2.2 a ha) with h | ⟨g, hg, he⟩
        · exact Or.inl h
        · exact Or.inr ⟨g, hgm g hg, he⟩
      · intro c2 hc2
        obtain ⟨c1, hc1, hcc⟩ := List.mem_map.mp hc2
        rw [h4n.2.2.1, h3n.2.2.1] at hc1
        obtain ⟨c, hc, hnum, hest, hart⟩ := capsInsert_spec grupo t.capitulos false c1 hc1
        refine ⟨c, hc, ?_, ?_⟩
        · rw [← hcc]
          by_cases hf : c1.articulos.isEmpty = true
          · rw [if_pos hf]
            exact hest
          · rw [if_neg hf]
            exact hest
        · intro a ha
          rw [← hcc] at ha
          have ha1 : a ∈ c1.articulos := by
            revert ha
            by_cases hf : c1.articulos.isEmpty = true
            · rw [if_pos hf]
              exact fun ha => ha
            · rw [if_neg hf]
              exact fun ha => mem_sortArticulos.mp ha
          rcases hart a ha1 with h | ⟨g, hg, he⟩
          · exact Or.inl h
          · exact Or.inr ⟨g, hgm g hg, he⟩

/-! ## Claim C2 -/

/-- A law with one title and one article, and a dictamen carrying a
whole-law derogation followed by an incorporation of a new article 5. -/
def c2_ley : LeyData :=
  { titulos := [{ numero := some "I",
                  articulos := [{ numero := some "1", texto := some "Texto uno." }] }] }

def c2_dictamen : List Cambio :=
  [{ accion := .str "Derógase" },
   { accion := .str "Incorpórase", destino_articulo := some "5" }]

def allArticulosDerogadoB (o : Comparacion) : Bool :=
  o.titulos.all (fun t =>
    t.articulos.all (fun a => a.estado == some "derogado") &&
    t.capitulos.all (fun c => c.articulos.all (fun a => a.estado == some "derogado")))

/-- C2, counterexample.  A whole-law derogation together with an
incorporation operation in the same list: `derogacion_total` is set, yet
the output tree contains an Article node (the incorporated article 5)
whose estado is `incorporado`, not `derogado`. -/
theorem c2_counterexample :
    (compararLeyDictamenObjects c2_ley c2_dictamen "unknown" "unknown").map
      (fun o => (o.metadatos.derogacion_total, allArticulosDerogadoB o)) =
    some (true, false) := by decide

theorem capComparado_derogTotal (st : CambiosSt) (c0 : Capitulo) :
    (capComparado true st c0).estado = some "derogado" ∧
    ∀ a ∈ (capComparado true st c0).articulos, a.estado = some "derogado" := by
  unfold capComparado
  rw [if_pos rfl]
  refine ⟨rfl, ?_⟩
  intro a ha
  obtain ⟨a0, -, he⟩ := List.mem_map.mp ha
  rw [← he]
  rfl

theorem tituloComparado_derogTotal (st : CambiosSt) (t0 : Titulo) :
    (tituloComparado true st t0).estado = some "derogado" ∧
    (∀ a ∈ (tituloComparado true st t0).articulos, a.estado = some "derogado") ∧
    ∀ c ∈ (tituloComparado true st t0).capitulos,
      c.estado = some "derogado" ∧ ∀ a ∈ c.articulos, a.estado = some "derogado" := by
  unfold tituloComparado
  refine ⟨by rw [if_pos rfl], ?_, ?_⟩
  · intro a ha
    obtain ⟨a0, -, he⟩ := List.mem_map.mp ha
    rw [← he]
    rw [if_pos rfl]
    rfl
  · intro c hc
    obtain ⟨c0, -, he⟩ := List.mem_map.mp hc
    rw [← he]
    exact capComparado_derogTotal st c0

def estadoDOI (a : ArticuloCmp) : Prop :=
  a.estado = some "derogado" ∨ a.estado = some "incorporado"

def derogTotalOk (out : Comparacion) : Prop :=
  ∀ t ∈ out.titulos,
    (∀ a ∈ t.articulos, estadoDOI a) ∧
    ∀ c ∈ t.capitulos, c.estado = some "derogado" ∧ ∀ a ∈ c.articulos, estadoDOI a

/-- C2, amended.  Under whole-law derogation every Chapter node of the
output carries estado `derogado` and every Article node carries estado
`derogado` — except the articles inserted by incorporation operations of
the same list, which are still added with estado `incorporado`. -/
theorem c2_amended_derogacion_total :
    ∀ (ley : LeyData) (d : List Cambio) (ls ds : String) (out : Comparacion),
      compararLeyDictamenObjects ley d ls ds = some out →
      out.metadatos.derogacion_total = true →
      derogTotalOk out := by
  intro ley d ls ds out h hdt
  unfold compararLeyDictamenObjects at h
  cases hst : processDictamenChanges d ley with
  | none => rw [hst] at h; cases h
  | some st =>
      rw [hst] at h
      dsimp only at h
      cases h
      have hdt2 : st.derogacion_total = true := hdt
      intro t ht
      dsimp only at ht
      rw [hdt2] at ht
      by_cases hinc : (processIncorporatedArticles st.incorporaciones ley).isEmpty = true
      · rw [if_pos hinc] at ht
        obtain ⟨t0, -, he⟩ := List.mem_map.mp ht
        obtain ⟨-, h2, h3⟩ := tituloComparado_derogTotal st t0
        rw [← he]
        refine ⟨fun a ha => Or.inl (h2 a ha), ?_⟩
        intro c hc
        obtain ⟨hce, hca⟩ := h3 c hc
        exact ⟨hce, fun a ha => Or.inl (hca a ha)⟩
      · rw [if_neg hinc] at ht
        obtain ⟨t1, ht1, he⟩ := List.mem_map.mp ht
        obtain ⟨t0, -, he0⟩ := List.mem_map.mp ht1
        obtain ⟨-, hp2, hp3⟩ := tituloComparado_derogTotal st t0
        rw [he0] at hp2 hp3
        obtain ⟨-, -, hins2, hins3⟩ :=
          tituloInsert_spec
            (gruposInc (processIncorporatedArticles st.incorporaciones ley)) t1
        rw [← he]
        constructor
        · intro a ha
          rcases hins2 a ha with hmem | ⟨g, hg, hae⟩
          · exact Or.inl (hp2 a hmem)
          · have hg2 := processIncorporated_estado (mem_gruposInc hg)
            rw [hae]
            right
            show some g.estado = some "incorporado"
            rw [hg2]
        · intro c hc
          obtain ⟨c1, hc1, hest, hart⟩ := hins3 c hc
          obtain ⟨hce, hca⟩ := hp3 c1 hc1
          refine ⟨hest.trans hce, ?_⟩
          intro a ha
          rcases hart a ha with hmem | ⟨g, hg, hae⟩
          · exact Or.inl (hca a hmem)
          · have hg2 := processIncorporated_estado (mem_gruposInc hg)
            rw [hae]
            right
            show some g.estado = some "incorporado"
            rw [hg2]

instance : Inhabited Metadatos :=
  ⟨{ ley_origen := "", dictamen_origen := "", total_sustituciones := 0,
     total_incorporaciones := 0, total_derogaciones := 0,
     capitulos_derogados := [], derogacion_total := false }⟩

instance : Inhabited Comparacion := ⟨{ metadatos := default }⟩

def c2_out : Comparacion :=
  (compararLeyDictamenObjects c2_ley c2_dictamen "unknown" "unknown").getD default

theorem c2_amended_derogacion_total_witness : derogTotalOk c2_out :=
  c2_amended_derogacion_total c2_ley c2_dictamen "unknown" "unknown" c2_out
    (by decide) (by decide)

/-! ## Claim C5 -/

def c5_ley : LeyData :=
  { titulos := [{ numero := some "I",
                  articulos := [{ numero := some "3", texto := some "Original tres." }] }] }

/-- A substitution operation that carries no replacement text at all. -/
def c5_d : List Cambio :=
  [{ accion := .str "Sustitúyese", destino_articulo := some "3" }]

def existsArticuloB (o : Comparacion) (p : ArticuloCmp → Bool) : Bool :=
  o.titulos.any (fun t =>
    t.articulos.any p || t.capitulos.any (fun c => c.articulos.any p))

/-- C5, counterexample.  A substitution whose operation has no
`texto_nuevo` still produces estado `sustituido`, and its `texto_nuevo`
field is the empty string — the claimed non-emptiness fails. -/
theorem c5_counterexample :
    (compararLeyDictamenObjects c5_ley c5_d "unknown" "unknown").map
      (fun o => existsArticuloB o
        (fun a => a.estado == some "sustituido" && a.texto_nuevo == some "")) =
    some true := by decide

def sustOk (a : ArticuloCmp) : Prop :=
  a.estado = some "sustituido" → a.texto_original = some (a.base.texto.getD "")

theorem apply_sustOk (art : Articulo) (st : CambiosSt) :
    sustOk (applyChangesToArticle art st) := by
  unfold applyChangesToArticle sustOk
  dsimp only
  cases alLookup (normalizeArt art.numero) st.cambios_por_articulo with
  | none =>
      dsimp only
      intro h
      exact absurd h (by decide)
  | some e =>
      dsimp only
      by_cases h1 : e.tipo = "sustitucion"
      · rw [if_pos h1]
        intro _
        rfl
      · rw [if_neg h1]
        by_cases h2 : e.tipo = "derogacion"
        · rw [if_pos h2]
          intro h
          dsimp only at h
          exact absurd h (by decide)
        · rw [if_neg h2]
          intro h
          dsimp only at h
          exact absurd h (by decide)

theorem capComparado_sustOk (dt : Bool) (st : CambiosSt) (c0 : Capitulo) :
    ∀ a ∈ (capComparado dt st c0).articulos, sustOk a := by
  unfold capComparado
  dsimp only
  by_cases h1 : dt = true
  · rw [if_pos h1]
    intro a ha
    obtain ⟨a0, -, he⟩ := List.mem_map.mp ha
    rw [← he]
    intro h
    dsimp only [marcarArticuloDerogTotal] at h
    exact absurd h (by decide)
  · rw [if_neg h1]
    by_cases h2 : (alLookup (normalizeArt c0.numero) st.derogaciones_capitulos).isSome = true
    · rw [if_pos h2]
      intro a ha
      obtain ⟨a0, -, he⟩ := List.mem_map.mp ha
      rw [← he]
      intro h
      dsimp only [marcarArticuloCapDerog] at h
      exact absurd h (by decide)
    · rw [if_neg h2]
      intro a ha
      obtain ⟨a0, -, he⟩ := List.mem_map.mp ha
      rw [← he]
      exact apply_sustOk a0 st

theorem tituloComparado_sustOk (dt : Bool) (st : CambiosSt) (t0 : Titulo) :
    (∀ a ∈ (tituloComparado dt st t0).articulos, sustOk a) ∧
    ∀ c ∈ (tituloComparado dt st t0).capitulos, ∀ a ∈ c.articulos, sustOk a := by
  unfold tituloComparado
  constructor
  · intro a ha
    obtain ⟨a0, -, he⟩ := List.mem_map.mp ha
    rw [← he]
    by_cases h1 : dt = true
    · rw [if_pos h1]
      intro h
      dsimp only [marcarArticuloDerogTotal] at h
      exact absurd h (by decide)
    · rw [if_neg h1]
      exact apply_sustOk a0 st
  · intro c hc
    obtain ⟨c0, -, he⟩ := List.mem_map.mp hc
    rw [← he]
    exact capComparado_sustOk dt st c0

def comparacionSustOk (out : Comparacion) : Prop :=
  ∀ t ∈ out.titulos,
    (∀ a ∈ t.articulos, sustOk a) ∧
    ∀ c ∈ t.capitulos, ∀ a ∈ c.articulos, sustOk a

/-- C5, amended.  Every Article node of the output tree with estado
`sustituido` carries, in `texto_original`, exactly the `texto` of the
input article it copies (its own base payload); `texto_nuevo` holds the
parsed body of the operation's replacement text and may be empty (for
instance when the operation has no texto_nuevo). -/
theorem c5_amended_texto_original :
    ∀ (ley : LeyData) (d : List Cambio) (ls ds : String) (out : Comparacion),
      compararLeyDictamenObjects ley d ls ds = some out →
      comparacionSustOk out := by
  intro ley d ls ds out h
  unfold compararLeyDictamenObjects at h
  cases hst : processDictamenChanges d ley with
  | none => rw [hst] at h; cases h
  | some st =>
      rw [hst] at h
      dsimp only at h
      cases h
      intro t ht
      dsimp only at ht
      by_cases hinc : (processIncorporatedArticles st.incorporaciones ley).isEmpty = true
      · rw [if_pos hinc] at ht
        obtain ⟨t0, -, he⟩ := List.mem_map.mp ht
        obtain ⟨h2, h3⟩ := tituloComparado_sustOk st.derogacion_total st t0
        rw [← he]
        exact ⟨h2, h3⟩
      · rw [if_neg hinc] at ht
        obtain ⟨t1, ht1, he⟩ := List.mem_map.mp ht
        obtain ⟨t0, -, he0⟩ := List.mem_map.mp ht1
        obtain ⟨hp2, hp3⟩ := tituloComparado_sustOk st.derogacion_total st t0
        rw [he0] at hp2 hp3
        obtain ⟨-, -, hins2, hins3⟩ :=
          tituloInsert_spec
            (gruposInc (processIncorporatedArticles st.incorporaciones ley)) t1
        rw [← he]
        constructor
        · intro a ha
          rcases hins2 a ha with hmem | ⟨g, hg, hae⟩
          · exact hp2 a hmem
          · have hg2 := processIncorporated_estado (mem_gruposInc hg)
            rw [hae]
            intro hcon
            have : some g.estado = some "sustituido" := hcon
            rw [hg2] at this
            exact absurd this (by decide)
        · intro c hc
          obtain ⟨c1, hc1, -, hart⟩ := hins3 c hc
          intro a ha
          rcases hart a ha with hmem | ⟨g, hg, hae⟩
          · exact hp3 c1 hc1 a hmem
          · have hg2 := processIncorporated_estado (mem_gruposInc hg)
            rw [hae]
            intro hcon
            have : some g.estado = some "sustituido" := hcon
            rw [hg2] at this
            exact absurd this (by decide)

def c5_out : Comparacion :=
  (compararLeyDictamenObjects c5_ley c5_d "unknown" "unknown").getD default

theorem c5_amended_texto_original_witness : comparacionSustOk c5_out :=
  c5_amended_texto_original c5_ley c5_d "unknown" "unknown" c5_out (by decide)

/-! ## Claim C9 -/

instance : IsTotal ArticuloCmp artLe :=
  ⟨fun a b => by
    unfold artLe keyLe
    simp only [Bool.or_eq_true, Bool.and_eq_true, decide_eq_true_eq]
    omega⟩

instance : IsTrans ArticuloCmp artLe :=
  ⟨fun a b c hab hbc => by
    unfold artLe keyLe at hab hbc ⊢
    simp only [Bool.or_eq_true, Bool.and_eq_true, decide_eq_true_eq] at hab hbc ⊢
    omega⟩

theorem sorted_sortArticulos (l : List ArticuloCmp) :
    (sortArticulos l).Sorted artLe :=
  List.sorted_insertionSort artLe l

theorem tiSort_art (t3 : TituloCmp) :
    ((if t3.articulos.isEmpty then t3
      else { t3 with articulos := sortArticulos t3.articulos }) : TituloCmp).articulos.Sorted
      artLe := by
  by_cases hf : t3.articulos.isEmpty = true
  · rw [if_pos hf]
    have hnil : t3.articulos = [] := by
      cases hl : t3.articulos
      · rfl
      · rw [hl] at hf; exact Bool.noConfusion hf
    rw [hnil]
    exact List.sorted_nil
  · rw [if_neg hf]
    exact sorted_sortArticulos t3.articulos

theorem tiSort_caps (caps : List CapituloCmp) :
    ∀ c ∈ caps.map (fun c =>
        if c.articulos.isEmpty then c
        else { c with articulos := sortArticulos c.articulos }),
      c.articulos.Sorted artLe := by
  intro c hc
  obtain ⟨c0, -, he⟩ := List.mem_map.mp hc
  rw [← he]
  by_cases hf : c0.articulos.isEmpty = true
  · rw [if_pos hf]
    have hnil : c0.articulos = [] := by
      cases hl : c0.articulos
      · rfl
      · rw [hl] at hf; exact Bool.noConfusion hf
    rw [hnil]
    exact List.sorted_nil
  · rw [if_neg hf]
    exact sorted_sortArticulos c0.articulos

theorem tituloInsert_sorted (grupos : List (String × List ArtInc)) (t : TituloCmp)
    (h : (alLookup (pyStr t.numero) grupos).isSome = true) :
    (tituloInsert grupos t).articulos.Sorted artLe ∧
    ∀ c ∈ (tituloInsert grupos t).capitulos, c.articulos.Sorted artLe := by
  unfold tituloInsert
  cases hg : alLookup (pyStr t.numero) grupos with
  | none => rw [hg] at h; exact Bool.noConfusion h
  | some grupo =>
      dsimp only
      exact ⟨tiSort_art _, tiSort_caps _⟩

/-- C9: a Title of the output tree that received incorporated articles
(i.e. whose numero owns a group of the incorporation grouping) has its
direct article list and each of its chapters' article lists sorted
non-decreasingly by the (numeric base, ordinal-suffix rank) key. -/
theorem c9_sorted_after_insertion :
    ∀ (ley : LeyData) (d : List Cambio) (ls ds : String) (st : CambiosSt)
      (out : Comparacion) (t : TituloCmp),
      processDictamenChanges d ley = some st →
      compararLeyDictamenObjects ley d ls ds = some out →
      t ∈ out.titulos →
      (alLookup (pyStr t.numero)
        (gruposInc (processIncorporatedArticles st.incorporaciones ley))).isSome = true →
      t.articulos.Sorted artLe ∧ ∀ c ∈ t.capitulos, c.articulos.Sorted artLe := by
  intro ley d ls ds st out t hst h ht hl
  unfold compararLeyDictamenObjects at h
  rw [hst] at h
  dsimp only at h
  cases h
  dsimp only at ht
  by_cases hinc : (processIncorporatedArticles st.incorporaciones ley).isEmpty = true
  · have hnil : processIncorporatedArticles st.incorporaciones ley = [] := by
      cases hh : processIncorporatedArticles st.incorporaciones ley
      · rfl
      · rw [hh] at hinc; exact Bool.noConfusion hinc
    rw [hnil] at hl
    exact Bool.noConfusion hl
  · rw [if_neg hinc] at ht
    obtain ⟨t1, -, he⟩ := List.mem_map.mp ht
    have hnum :=
      (tituloInsert_spec
        (gruposInc (processIncorporatedArticles st.incorporaciones ley)) t1).1
    rw [← he] at hl ⊢
    rw [hnum] at hl
    exact tituloInsert_sorted _ t1 hl

def c9_ley : LeyData :=
  { titulos := [{ numero := some "I",
                  articulos := [{ numero := some "1", texto := some "Uno." },
                                { numero := some "3", texto := some "Tres." }] }] }

def c9_d : List Cambio :=
  [{ accion := .str "Incorpórase", destino_articulo := some "2" }]

instance : Inhabited CambiosSt := ⟨{}⟩

instance : Inhabited TituloCmp := ⟨{}⟩

def c9_st : CambiosSt := (processDictamenChanges c9_d c9_ley).getD default

def c9_out : Comparacion :=
  (compararLeyDictamenObjects c9_ley c9_d "unknown" "unknown").getD default

def c9_t : TituloCmp := c9_out.titulos.getD 0 default

theorem c9_sorted_after_insertion_witness :
    c9_t.articulos.Sorted artLe ∧ ∀ c ∈ c9_t.capitulos, c.articulos.Sorted artLe :=
  c9_sorted_after_insertion c9_ley c9_d "unknown" "unknown" c9_st c9_out c9_t
    (by decide) (by decide) (by decide) (by decide)

/-! ## Claim C6 -/

theorem reSearch_inv {β : Type} (f : Cs → Option β) (P : β → Prop)
    (hf : ∀ s b, f s = some b → P b) :
    ∀ s b, reSearch f s = some b → P b := by
  intro s
  induction s with
  | nil => intro b h; exact hf [] b h
  | cons c r ih =>
      intro b h
      unfold reSearch at h
      cases hc : f (c :: r) with
      | some b2 =>
          rw [hc] at h
          have hb : b2 = b := Option.some.inj h
          rw [← hb]
          exact hf _ b2 hc
      | none =>
          rw [hc] at h
          exact ih b h

theorem digits1_ne {s ds r : Cs} (h : digits1 s = some (ds, r)) : ds ≠ [] := by
  unfold digits1 at h
  dsimp only at h
  split at h
  · exact Option.noConfusion h
  · rename_i hne
    have h2 := Option.some.inj h
    injection h2 with h3 h4
    intro hnil
    rw [hnil] at h3
    rw [h3] at hne
    exact hne rfl

theorem tryInciso_snd_ne : ∀ (s : Cs) (b : Char × String),
    tryInciso s = some b → b.2 ≠ "" := by
  intro s b h
  unfold tryInciso at h
  repeat' split at h
  all_goals try exact Option.noConfusion h
  rename_i ds rr heq
  have hb := Option.some.inj h
  intro hp
  apply digits1_ne heq
  rw [← hb] at hp
  exact congrArg String.data hp

/-- The header-target shape that survives into every operation: a chapter
target excludes an inciso target, an inciso target always carries a
non-empty parent article number, and a parent article number only
appears together with an inciso target. -/
def targetMetaInv (m : TargetMeta) : Prop :=
  (m.destino_capitulo.isSome = true →
    m.destino_inciso = none ∧ m.destino_articulo_padre = none) ∧
  (m.destino_inciso.isSome = true →
    ∃ p, m.destino_articulo_padre = some p ∧ p ≠ "") ∧
  (m.destino_articulo_padre.isSome = true → m.destino_inciso.isSome = true)

theorem parseActionAndTarget_inv (header : String) :
    targetMetaInv (parseActionAndTarget header) := by
  unfold parseActionAndTarget
  dsimp only
  split
  · exact ⟨fun _ => ⟨rfl, rfl⟩, fun h => Bool.noConfusion h, fun h => Bool.noConfusion h⟩
  · split
    · rename_i l padre heq
      refine ⟨fun h => Bool.noConfusion h, fun _ => ⟨padre, rfl, ?_⟩, fun _ => rfl⟩
      exact reSearch_inv tryInciso (fun b => b.2 ≠ "") tryInciso_snd_ne
        header.data (l, padre) heq
    · split
      · exact ⟨fun h => Bool.noConfusion h, fun h => Bool.noConfusion h,
               fun h => Bool.noConfusion h⟩
      · split
        · exact ⟨fun h => Bool.noConfusion h, fun h => Bool.noConfusion h,
                 fun h => Bool.noConfusion h⟩
        · split
          · exact ⟨fun h => Bool.noConfusion h, fun h => Bool.noConfusion h,
                   fun h => Bool.noConfusion h⟩
          · exact ⟨fun h => Bool.noConfusion h, fun h => Bool.noConfusion h,
                   fun h => Bool.noConfusion h⟩

theorem construirObjetivoTargets_inv (m : TargetMeta) (txt : Option String)
    (hm : targetMetaInv m) : targetMetaInv (construirObjetivoTargets m txt) := hm

def targetInv (op : DictamenOp) : Prop :=
  (op.destino_capitulo.isSome = true →
    op.destino_inciso = none ∧ op.destino_articulo_padre = none) ∧
  (op.destino_inciso.isSome = true →
    ∃ p, op.destino_articulo_padre = some p ∧ p ≠ "") ∧
  (op.destino_articulo_padre.isSome = true → op.destino_inciso.isSome = true)

def pstateInv (s : PState) : Prop := ∀ m, s.meta = some m → targetMetaInv m

theorem optToList_eq {α : Type} {o : Option α} {a : α} (h : a ∈ o.toList) :
    o = some a := by
  cases o with
  | none => cases h
  | some b =>
      cases h with
      | head => rfl
      | tail _ h2 => cases h2

theorem finalizeOp_inv (s : PState) (op : DictamenOp) (hs : pstateInv s)
    (h : finalizeOp s = some op) : targetInv op := by
  unfold finalizeOp at h
  split at h
  · rename_i art meta heq1 heq2
    have hm := hs meta heq2
    have he := Option.some.inj h
    rw [← he]
    exact hm
  · exact Option.noConfusion h

theorem pstateInv_captureStep (s : PState) (line : String) (rest : List String)
    (hs : pstateInv s) : pstateInv (captureStep s line rest) := by
  intro m hm
  unfold captureStep at hm
  dsimp only at hm
  repeat' split at hm
  all_goals exact hs m hm

theorem parseLoopF_inv (f : Nat) :
    ∀ (s : PState) (lines : List String), pstateInv s →
      ∀ op ∈ parseLoopF f s lines, targetInv op := by
  induction f with
  | zero =>
      intro s lines hs op hop
      simp only [parseLoopF] at hop
      exact finalizeOp_inv s op hs (optToList_eq hop)
  | succ f ih =>
      intro s lines hs op hop
      cases lines with
      | nil =>
          simp only [parseLoopF] at hop
          exact finalizeOp_inv s op hs (optToList_eq hop)
      | cons line rest =>
          simp only [parseLoopF] at hop
          split at hop
          · rcases List.mem_append.mp hop with h1 | h2
            · split at h1
              · exact finalizeOp_inv s op hs (optToList_eq h1)
              · cases h1
            · refine ih _ rest ?_ op h2
              intro m hm
              split at hm
              · exact Option.noConfusion hm
              · exact hs m hm
          · split at hop
            · rcases List.mem_append.mp hop with h1 | h2
              · split at h1
                · exact finalizeOp_inv s op hs (optToList_eq h1)
                · cases h1
              · refine ih _ rest ?_ op h2
                intro m hm
                split at hm
                · exact Option.noConfusion hm
                · exact hs m hm
            · split at hop
              · split at hop
                · rcases List.mem_append.mp hop with h1 | h2
                  · split at h1
                    · exact finalizeOp_inv s op hs (optToList_eq h1)
                    · cases h1
                  · refine ih _ _ ?_ op h2
                    intro m hm
                    have hme := Option.some.inj hm
                    rw [← hme]
                    exact parseActionAndTarget_inv _
                · split at hop
                  · refine ih _ rest ?_ op hop
                    intro m hm
                    split at hm
                    · exact hs m hm
                    · exact hs m hm
                  · exact ih s rest hs op hop
              · split at hop
                · split at hop
                  · refine ih _ rest ?_ op hop
                    intro m hm
                    exact hs m hm
                  · split at hop
                    · split at hop
                      · refine ih _ rest ?_ op hop
                        intro m hm
                        exact hs m hm
                      · split at hop
                        · refine ih _ rest ?_ op hop
                          intro m hm
                          exact hs m hm
                        · exact ih _ rest (pstateInv_captureStep s line rest hs) op hop
                    · exact ih _ rest (pstateInv_captureStep s line rest hs) op hop
                · exact ih _ rest (pstateInv_captureStep s line rest hs) op hop

/-- A dictamen whose article 1 substitutes inciso a) of article 12 and
whose captured replacement text opens with an article heading. -/
def c6_lines : List String :=
  ["ARTÍCULO 1- Sustitúyese el inciso a) del artículo 12 de la Ley N° 20.744",
   "por el siguiente:",
   "ARTICULO 80.- bla"]

/-- C6, counterexample.  The parser emits a single operation carrying an
inciso target (inciso a) of parent article 12) AND a populated
destino_articulo ("80", read off the head of the replacement text by
construir_objetivo_accion), so the target variants are not mutually
exclusive. -/
theorem c6_counterexample :
    (parseDictamen c6_lines).map
      (fun op => (op.destino_inciso, op.destino_articulo_padre, op.destino_articulo)) =
    [(some "a)", some "12", some "80")] := by decide

/-- C6, amended.  For every operation produced by the parser: a chapter
target excludes an inciso target, an inciso target always carries a
non-empty parent article number, and a parent article number only occurs
together with an inciso target; but destino_articulo may be populated
alongside an inciso or chapter target (construir_objetivo_accion fills it
from the head of the replacement text whenever the header yielded no
article number). -/
theorem c6_amended_target_invariant :
    ∀ (lines : List String) (op : DictamenOp),
      op ∈ parseDictamen lines → targetInv op := by
  intro lines op h
  exact parseLoopF_inv (lines.length + 1) {} lines
    (fun m hm => Option.noConfusion hm) op h

instance : Inhabited DictamenOp := ⟨{ dictamen_articulo := "", titulo := "" }⟩

def c6_op : DictamenOp := (parseDictamen c6_lines).getD 0 default

theorem c6_amended_target_invariant_witness : targetInv c6_op :=
  c6_amended_target_invariant c6_lines c6_op (by decide)

end LCT

